import Mathlib

/-!
# qmlbench-parser: pairing and comparison of benchmark reports

A shallow embedding of `src/qmlbench-parser/main.cpp`.

* `QReal` stands for the C++ `double` behind `qreal`: the finite values are
  exact rationals (rounding and overflow of finite arithmetic are abstracted),
  and the IEEE special values NaN, +inf and -inf are kept, because the program
  divides by a value read from a file without testing it for zero.  The two
  signed zeros are identified; the program takes `qAbs` of every quotient it
  forms, so the sign of a quotient by zero is not observable.
* `QDateTime` is `Option Int`: `none` is the invalid date-time, `some t` a
  valid one (milliseconds since the epoch).
* `QHash<QString, BenchmarkDataPair>` is an association list with one entry
  per key; its iteration order (unspecified in Qt) is the insertion order.
* What the program obtains from Qt and from the host (file existence, the
  directory listing, number formatting, the mail helper) is the record `Env`.
-/

namespace QmlBench

/-! ## qreal -/

/-- Values of a C++ `double`: NaN, the two infinities, and the finite values. -/
inductive QReal where
  | nan
  | posInf
  | negInf
  | fin (q : ℚ)
deriving DecidableEq

namespace QReal

/-- Unary minus. -/
def neg : QReal → QReal
  | nan => nan
  | posInf => negInf
  | negInf => posInf
  | fin q => fin (-q)

/-- IEEE subtraction `x - y`. -/
def sub : QReal → QReal → QReal
  | nan, _ => nan
  | _, nan => nan
  | posInf, posInf => nan
  | negInf, negInf => nan
  | posInf, _ => posInf
  | negInf, _ => negInf
  | fin _, posInf => negInf
  | fin _, negInf => posInf
  | fin a, fin b => fin (a - b)

/-- IEEE division `x / y`; a finite non-zero value divided by zero is an
infinity, `0 / 0` and `inf / inf` are NaN. -/
def div : QReal → QReal → QReal
  | nan, _ => nan
  | _, nan => nan
  | posInf, posInf => nan
  | posInf, negInf => nan
  | negInf, posInf => nan
  | negInf, negInf => nan
  | posInf, fin b => if b < 0 then negInf else posInf
  | negInf, fin b => if b < 0 then posInf else negInf
  | fin _, posInf => fin 0
  | fin _, negInf => fin 0
  | fin a, fin b =>
    if b = 0 then (if a = 0 then nan else if a < 0 then negInf else posInf)
    else fin (a / b)

/-- IEEE multiplication `x * y`; `0 * inf` is NaN. -/
def mul : QReal → QReal → QReal
  | nan, _ => nan
  | _, nan => nan
  | posInf, posInf => posInf
  | posInf, negInf => negInf
  | negInf, posInf => negInf
  | negInf, negInf => posInf
  | posInf, fin b => if b = 0 then nan else if b < 0 then negInf else posInf
  | negInf, fin b => if b = 0 then nan else if b < 0 then posInf else negInf
  | fin a, posInf => if a = 0 then nan else if a < 0 then negInf else posInf
  | fin a, negInf => if a = 0 then nan else if a < 0 then posInf else negInf
  | fin a, fin b => fin (a * b)

/-- The comparison `x <= y` of C++; false as soon as one side is NaN. -/
def le : QReal → QReal → Bool
  | nan, _ => false
  | _, nan => false
  | negInf, _ => true
  | _, posInf => true
  | posInf, _ => false
  | fin _, negInf => false
  | fin a, fin b => decide (a ≤ b)

/-- The comparison `x < y` of C++; false as soon as one side is NaN. -/
def lt : QReal → QReal → Bool
  | nan, _ => false
  | _, nan => false
  | posInf, _ => false
  | _, negInf => false
  | negInf, _ => true
  | fin _, posInf => true
  | fin a, fin b => decide (a < b)

/-- The comparison `x >= y` of C++. -/
def ge (x y : QReal) : Bool := le y x

/-- The comparison `x > y` of C++. -/
def gt (x y : QReal) : Bool := lt y x

/-- Qt's `qAbs`: `t >= 0 ? t : -t`. -/
def qAbs (t : QReal) : QReal := if ge t (fin 0) then t else neg t

end QReal

/-! ## Qt value types -/

/-- A `QDateTime`: `none` is the invalid date-time. -/
abbrev QDateTime := Option Int

/-- `QDateTime::isValid`. -/
def QDateTime.isValid (t : QDateTime) : Bool := t.isSome

/-- A `QJsonValue`. -/
inductive QJsonValue where
  | null
  | undefined
  | bool (b : Bool)
  | double (d : QReal)
  | string (s : String)
  | array (items : List QJsonValue)
  | object (members : List (String × QJsonValue))

/-- A `QJsonObject`: the members as a list; a key denotes its first member. -/
abbrev QJsonObject := List (String × QJsonValue)

namespace QJsonValue

/-- `QJsonValue::toString()`: the empty string unless the value is a string. -/
def toString : QJsonValue → String
  | string s => s
  | _ => ""

/-- `QJsonValue::toDouble()`: `0` unless the value is a number. -/
def toDouble : QJsonValue → QReal
  | double d => d
  | _ => QReal.fin 0

/-- `QJsonValue::toObject()`: the empty object unless the value is an object. -/
def toObject : QJsonValue → QJsonObject
  | object m => m
  | _ => []

/-- `QJsonValue::toArray()`: the empty array unless the value is an array. -/
def toArray : QJsonValue → List QJsonValue
  | array a => a
  | _ => []

end QJsonValue

/-- `QJsonObject::value(key)`: `Undefined` when the key is absent. -/
def QJsonObject.value : QJsonObject → String → QJsonValue
  | [], _ => QJsonValue.undefined
  | (k, v) :: rest, key => if k = key then v else QJsonObject.value rest key

/-- The keys visited by iterating a `QJsonObject` from `constBegin()` to
`constEnd()`: every key once. -/
def QJsonObject.keys (o : QJsonObject) : List String := (o.map Prod.fst).dedup

/-- `QString::split(sep)` on the characters of a string (empty parts kept). -/
def splitChars (sep : Char) : List Char → List (List Char)
  | [] => [[]]
  | c :: cs =>
    if c = sep then [] :: splitChars sep cs
    else
      match splitChars sep cs with
      | [] => [[c]]
      | p :: ps => (c :: p) :: ps

/-- `QString::split(QLatin1Char(sep))`. -/
def split (s : String) (sep : Char) : List String :=
  (splitChars sep s.data).map String.mk

/-! ## The data model of main.cpp -/

/-- `struct BenchmarkData`; the defaults are those of its constructor. -/
structure BenchmarkData where
  average : QReal := QReal.fin 0
  results : List String := []
  time : QDateTime := none
  baseCommit : String := ""
  declarativeCommit : String := ""
  renderer : String := ""
  vendor : String := ""
  driverVersion : String := ""
  platformPlugin : String := ""
  productName : String := ""
  windowSize : String := ""
deriving DecidableEq

/-- `typedef QPair<BenchmarkData, BenchmarkData> BenchmarkDataPair`. -/
structure BenchmarkDataPair where
  first : BenchmarkData := {}
  second : BenchmarkData := {}
deriving DecidableEq

/-- `QHash<QString, BenchmarkDataPair>`. -/
abbrev BenchmarkHash := List (String × BenchmarkDataPair)

namespace BenchmarkHash

/-- The pair stored under `key`, if there is one. -/
def lookup (key : String) : BenchmarkHash → Option BenchmarkDataPair
  | [] => none
  | (k, v) :: rest => if k = key then some v else lookup key rest

/-- `QHash::value(key)`: a default-constructed pair when the key is absent. -/
def value (h : BenchmarkHash) (key : String) : BenchmarkDataPair :=
  (lookup key h).getD {}

/-- Store `v` under `key`, replacing the pair already there or adding an entry. -/
def insert (key : String) (v : BenchmarkDataPair) : BenchmarkHash → BenchmarkHash
  | [] => [(key, v)]
  | (k, w) :: rest => if k = key then (key, v) :: rest else (k, w) :: insert key v rest

end BenchmarkHash

/-- What `collectData` reads through a `QFileInfo`: the path, whether the file
opens for reading, the root object of `QJsonDocument::fromJson(file.readAll())`
(empty when the content is not a JSON object), and the modification time. -/
structure QFileInfo where
  absoluteFilePath : String
  canOpen : Bool
  root : QJsonObject
  lastModified : QDateTime

/-- A regular file of a directory as listed by `QDir::entryInfoList(QDir::Files)`;
a listed file exists, so its modification time is a valid date-time. -/
structure DirFile where
  fileName : String
  mtime : Int
  canOpen : Bool
  root : QJsonObject

/-- The `QFileInfo` of a listed file. -/
def DirFile.info (directory : String) (f : DirFile) : QFileInfo :=
  { absoluteFilePath := directory ++ "/" ++ f.fileName
    canOpen := f.canOpen
    root := f.root
    lastModified := some f.mtime }

/-- The collaborators of the program: Qt library functions whose result is a
rendering or depends on the host, and the state of the host. -/
structure Env where
  /-- `QFileInfo(key).exists()`. -/
  fileExists : String → Bool
  /-- `QString::number(double)`. -/
  number : QReal → String
  /-- The rendering of a `double` by `QString::arg(double)`. -/
  argNumber : QReal → String
  /-- The rendering of a `double` by `QString::arg(double)` at a `%L` marker. -/
  argNumberLocale : QReal → String
  /-- `QDateTime::toString(Qt::ISODate)`. -/
  isoDate : QDateTime → String
  /-- `QString::toDouble(&ok)`: the value and the `ok` flag. -/
  toDouble : String → QReal × Bool
  /-- `QFileInfo(directory).baseName()`. -/
  baseName : String → String
  /-- The regular files of a directory, in no particular order. -/
  files : String → List DirFile
  /-- `QProcess::waitForFinished()` of the mail helper. -/
  waitForFinished : Bool

/-! ## collectData(const QFileInfo &, QHash *) -/

/-- The values `collectData` reads from the root object before its loop
(lines 38-66): the two commits of `id`, and the environment strings. -/
structure Metadata where
  baseCommit : String
  declarativeCommit : String
  windowSize : String
  renderer : String
  vendor : String
  driverVersion : String
  platformPlugin : String
  productName : String
deriving DecidableEq

/-- Lines 38-66 of main.cpp. -/
def readMetadata (root : QJsonObject) : Metadata :=
  let id := (root.value "id").toString
  let commits := split id ','
  let opengl := (root.value "opengl").toObject
  let os := (root.value "os").toObject
  { baseCommit := if commits.length ≠ 2 then "" else commits.getD 0 ""
    declarativeCommit := if commits.length ≠ 2 then "" else commits.getD 1 ""
    windowSize := (root.value "windowSize").toString
    renderer := (opengl.value "renderer").toString
    vendor := (opengl.value "vendor").toString
    driverVersion := (opengl.value "version").toString
    platformPlugin := (os.value "platformPlugin").toString
    productName := (os.value "prettyProductName").toString }

/-- Lines 75-90: the assignments to `data`, the slot being filled, from the
file, its metadata and the value `it.value()` of the benchmark key. -/
def fillData (env : Env) (fileInfo : QFileInfo) (m : Metadata) (value : QJsonValue)
    (data : BenchmarkData) : BenchmarkData :=
  let o := value.toObject
  let array := (o.value "results").toArray
  { time := fileInfo.lastModified
    windowSize := m.windowSize
    renderer := m.renderer
    vendor := m.vendor
    driverVersion := m.driverVersion
    platformPlugin := m.platformPlugin
    productName := m.productName
    baseCommit := m.baseCommit
    declarativeCommit := m.declarativeCommit
    average := (o.value "average").toDouble
    results := data.results ++ array.map (fun x => env.number x.toDouble) }

/-- The test of line 71: the key is none of `os`, `opengl`, `windowSize`, and
a file of that name exists. -/
def admitted (env : Env) (key : String) : Bool :=
  key != "os" && key != "opengl" && key != "windowSize" && env.fileExists key

/-- Lines 72-91: what the body of the `if` of line 71 does to the pair stored
under the key. -/
def fillPair (env : Env) (fileInfo : QFileInfo) (m : Metadata) (value : QJsonValue)
    (dataPair : BenchmarkDataPair) : BenchmarkDataPair :=
  if !dataPair.first.time.isValid || !dataPair.second.time.isValid then
    if dataPair.first.time.isValid then
      { dataPair with second := fillData env fileInfo m value dataPair.second }
    else
      { dataPair with first := fillData env fileInfo m value dataPair.first }
  else dataPair

/-- One iteration of the loop of lines 69-93; `(*benchmarkDatas)[key]` creates
the entry of the key when there is none. -/
def collectEntry (env : Env) (fileInfo : QFileInfo) (m : Metadata)
    (benchmarkDatas : BenchmarkHash) (key : String) : BenchmarkHash :=
  if admitted env key then
    benchmarkDatas.insert key
      (fillPair env fileInfo m (fileInfo.root.value key) (benchmarkDatas.value key))
  else benchmarkDatas

/-- `void collectData(const QFileInfo &fileInfo, QHash<QString, BenchmarkDataPair> *benchmarkDatas)`:
the hash after the call. -/
def collectData (env : Env) (fileInfo : QFileInfo) (benchmarkDatas : BenchmarkHash) :
    BenchmarkHash :=
  if !fileInfo.canOpen then benchmarkDatas
  else
    fileInfo.root.keys.foldl (collectEntry env fileInfo (readMetadata fileInfo.root)) benchmarkDatas

/-- The lines the call writes to `stderr`. -/
def collectDataWarnings (fileInfo : QFileInfo) : List String :=
  if !fileInfo.canOpen then
    ["Cannot open file for reading: " ++ fileInfo.absoluteFilePath ++ "\n"]
  else
    let id := (fileInfo.root.value "id").toString
    if (split id ',').length ≠ 2 then
      ["Warning: Misformed id in json file " ++ fileInfo.absoluteFilePath ++ ": " ++ id ++ "\n"]
    else []

/-! ## collectData(const QString &) -/

/-- The comparator of `QDir` for the sort flags `QDir::Time | QDir::Reversed`:
`QDir::Time` alone puts the most recently modified file first, files of equal
time in the order of their names, and `QDir::Reversed` reverses the order.  So
`a` goes before `b` when `a` was modified earlier. -/
def sortsBefore (a b : DirFile) : Bool :=
  decide (a.mtime < b.mtime) || (decide (a.mtime = b.mtime) && decide (b.fileName < a.fileName))

/-- Insertion of one file into a list sorted by `sortsBefore`. -/
def insertEntry (x : DirFile) : List DirFile → List DirFile
  | [] => [x]
  | y :: ys => if sortsBefore x y then x :: y :: ys else y :: insertEntry x ys

/-- The files sorted by `sortsBefore`. -/
def sortEntries : List DirFile → List DirFile
  | [] => []
  | x :: xs => insertEntry x (sortEntries xs)

/-- `QDir(directory).entryInfoList(QDir::Files, QDir::Time | QDir::Reversed)`. -/
def entryInfoList (env : Env) (directory : String) : List QFileInfo :=
  (sortEntries (env.files directory)).map (DirFile.info directory)

/-- `QHash<QString, BenchmarkDataPair> collectData(const QString &directory)`. -/
def collectDataDirectory (env : Env) (directory : String) : BenchmarkHash :=
  (entryInfoList env directory).foldl (fun ret entry => collectData env entry ret) []

/-! ## QString::arg -/

/-- `QChar::digitValue()`, for the decimal digits `0` to `9`. -/
def digitValue (c : Char) : Option Nat :=
  if c.isDigit then some (c.toNat - 48) else none

/-- A place marker `%N` or `%LN`: its number, whether it has the `L`, and the
number of characters it takes after the `%`. -/
structure ArgEscape where
  number : Nat
  locale : Bool
  length : Nat
deriving DecidableEq

/-- The digits of a place marker: one digit, and a second one when it follows. -/
def escapeDigits (locale : Bool) (skipped : Nat) : List Char → Option ArgEscape
  | [] => none
  | d :: rest =>
    match digitValue d with
    | none => none
    | some e =>
      match rest with
      | [] => some ⟨e, locale, skipped + 1⟩
      | d2 :: _ =>
        match digitValue d2 with
        | none => some ⟨e, locale, skipped + 1⟩
        | some e2 => some ⟨10 * e + e2, locale, skipped + 2⟩

/-- The place marker that starts right after a `%`, if there is one. -/
def escapeAfterPercent : List Char → Option ArgEscape
  | 'L' :: rest => escapeDigits true 1 rest
  | rest => escapeDigits false 0 rest

/-- A piece of a format string: a plain character or a place marker. -/
inductive ArgSegment where
  | text (c : Char)
  | marker (e : ArgEscape) (raw : List Char)

/-- The scan of `findArgEscapes`; `skip` counts the characters of the current
marker that are still to be passed over. -/
def argSegments : Nat → List Char → List ArgSegment
  | _, [] => []
  | skip + 1, _ :: rest => argSegments skip rest
  | 0, c :: rest =>
    if c = '%' then
      match escapeAfterPercent rest with
      | some e => ArgSegment.marker e (c :: rest.take e.length) :: argSegments e.length rest
      | none => ArgSegment.text c :: argSegments 0 rest
    else ArgSegment.text c :: argSegments 0 rest

/-- The lowest marker number of a format string (`min_escape`). -/
def minEscape : List ArgSegment → Option Nat
  | [] => none
  | ArgSegment.text _ :: rest => minEscape rest
  | ArgSegment.marker e _ :: rest =>
    match minEscape rest with
    | none => some e.number
    | some n => some (min e.number n)

/-- The string of `replaceArgEscapes` (field width 0): every marker of number `n` is replaced. -/
def replaceArgEscapes (n : Nat) (plain localized : List Char) : List ArgSegment → List Char
  | [] => []
  | ArgSegment.text c :: rest => c :: replaceArgEscapes n plain localized rest
  | ArgSegment.marker e raw :: rest =>
    (if e.number = n then (if e.locale then localized else plain) else raw)
      ++ replaceArgEscapes n plain localized rest

/-- `QString::arg` with the rendering of the argument for plain and for `%L`
markers; a string without marker is returned as it is. -/
def argWith (s plain localized : String) : String :=
  match minEscape (argSegments 0 s.data) with
  | none => s
  | some n => String.mk (replaceArgEscapes n plain.data localized.data (argSegments 0 s.data))

/-- `QString::arg(const QString &a)`. -/
def arg (s a : String) : String := argWith s a a

/-- `QString::arg(double a)`. -/
def argDouble (env : Env) (s : String) (a : QReal) : String :=
  argWith s (env.argNumber a) (env.argNumberLocale a)

/-- `QStringList::join(QLatin1Char(sep))`. -/
def join (sep : String) : List String → String
  | [] => ""
  | [x] => x
  | x :: y :: rest => x ++ sep ++ join sep (y :: rest)

/-! ## main -/

/-- The variables set by the argument loop of `main` (lines 112-118), with
their initial values. -/
structure Arguments where
  smtpServer : String := "localhost"
  senderEmail : String := "nobody@nowhere"
  errorMargin : QReal := QReal.fin (1 / 100)
  directory : String := ""
  email : String := ""
  helpRequested : Bool := false

/-- The loop of lines 119-148 over `arguments.at(1)`, `arguments.at(2)`, ...;
the loop stops as soon as `helpRequested` is set. -/
def parseArguments (env : Env) : List String → Arguments → Arguments
  | [], a => a
  | [argument], a =>
    if a.helpRequested then a
    else if argument = "-s" then { a with helpRequested := true }
    else if argument = "-f" then { a with helpRequested := true }
    else if argument = "-e" then { a with helpRequested := true }
    else if argument = "-h" then { a with helpRequested := true }
    else if a.directory = "" then { a with directory := argument }
    else if a.email = "" then { a with email := argument }
    else { a with helpRequested := true }
  | argument :: next :: rest, a =>
    if a.helpRequested then a
    else if argument = "-s" then parseArguments env rest { a with smtpServer := next }
    else if argument = "-f" then parseArguments env rest { a with senderEmail := next }
    else if argument = "-e" then
      parseArguments env rest
        { a with errorMargin := (env.toDouble next).1, helpRequested := (env.toDouble next).2 }
    else if argument = "-h" then { a with helpRequested := true }
    else if a.directory = "" then parseArguments env (next :: rest) { a with directory := argument }
    else if a.email = "" then parseArguments env (next :: rest) { a with email := argument }
    else { a with helpRequested := true }

/-- Line 175: `qAbs((second.average - first.average) / first.average)`. -/
def difference (dataPair : BenchmarkDataPair) : QReal :=
  QReal.qAbs (QReal.div (QReal.sub dataPair.second.average dataPair.first.average)
    dataPair.first.average)

/-- Lines 174-176: the pair gets a section in the report. -/
def flagged (errorMargin : QReal) (dataPair : BenchmarkDataPair) : Bool :=
  dataPair.first.time.isValid && dataPair.second.time.isValid
    && QReal.ge (QReal.qAbs (difference dataPair)) errorMargin

/-- Lines 177-180: the first line of a section. -/
def heading (difference : QReal) : String :=
  if QReal.lt difference (QReal.fin 0) then "\n\n____IMPROVEMENT DETECTED____\n"
  else "\n\n____REGRESSION DETECTED_____\n"

/-- The second argument of lines 189-206: `(was: <previous>` when the two
values differ, else the empty string. -/
def wasSuffix (current previous : String) : String :=
  if current ≠ previous then arg "(was: %1" previous else ""

/-- Lines 182-206: the text appended after the heading. -/
def details (env : Env) (key : String) (dataPair : BenchmarkDataPair) (difference : QReal) :
    String :=
  arg "    Name: %1" key
  ++ arg (arg (arg "        Previous data point: qtbase=%1, qtdeclarative=%2 (%3)\n"
        dataPair.first.baseCommit) dataPair.first.declarativeCommit)
        (env.isoDate dataPair.first.time)
  ++ arg (arg (arg "        Current data point : qtbase=%1, qtdeclarative=%2 (%3)\n"
        dataPair.second.baseCommit) dataPair.second.declarativeCommit)
        (env.isoDate dataPair.second.time)
  ++ argDouble env (argDouble env (argDouble env "        Average: %1 (was: %2, change: %3%)\n"
        dataPair.second.average) dataPair.first.average)
        (QReal.mul difference (QReal.fin 100))
  ++ arg (arg "        Results: %1 (was: %2)\n" (join "," dataPair.second.results))
        (join "," dataPair.first.results)
  ++ arg (arg "        Window size: %1 %2\n" dataPair.second.windowSize)
        (wasSuffix dataPair.second.windowSize dataPair.first.windowSize)
  ++ arg (arg "        Renderer: %1 %2\n" dataPair.second.renderer)
        (wasSuffix dataPair.second.renderer dataPair.first.renderer)
  ++ arg (arg "        Vendor: %1 %2\n" dataPair.second.vendor)
        (wasSuffix dataPair.second.vendor dataPair.first.vendor)
  ++ arg (arg "        Driver version: %1 %2\n" dataPair.second.driverVersion)
        (wasSuffix dataPair.second.driverVersion dataPair.first.driverVersion)
  ++ arg (arg "        Platform plugin: %1 %2\n" dataPair.second.platformPlugin)
        (wasSuffix dataPair.second.platformPlugin dataPair.first.platformPlugin)
  ++ arg (arg "        OS: %1 %2\n" dataPair.second.productName)
        (wasSuffix dataPair.second.productName dataPair.first.productName)

/-- Lines 177-206: the section of a flagged pair. -/
def sectionText (env : Env) (key : String) (dataPair : BenchmarkDataPair) : String :=
  heading (difference dataPair) ++ details env key dataPair (difference dataPair)

/-- One iteration of the loop of lines 172-209. -/
def appendSection (env : Env) (errorMargin : QReal) (testResultsFormatted : String)
    (it : String × BenchmarkDataPair) : String :=
  if it.2.first.time.isValid && it.2.second.time.isValid then
    if QReal.ge (QReal.qAbs (difference it.2)) errorMargin then
      testResultsFormatted ++ sectionText env it.1 it.2
    else testResultsFormatted
  else testResultsFormatted

/-- The string `testResultsFormatted` after the loop of lines 172-209. -/
def formatResults (env : Env) (errorMargin : QReal) (benchmarkDatas : BenchmarkHash) : String :=
  benchmarkDatas.foldl (appendSection env errorMargin) ""

/-- The two `fprintf(stderr, ...)` of lines 155-164. -/
def usage (program : String) : List String :=
  ["Usage: " ++ program ++ " <directory> <recipient e-mail> [options]\n\n",
   "Parses .json files in specified directory for qmlbench output and compares the\n"
   ++ "most recent results to the previous one for the same benchmark. If the results\n"
   ++ "differ significantly, a mail will be sent to the specified address.\n\n"
   ++ "Options:\n"
   ++ "   -s <smtp-server>    Default: localhost)\n"
   ++ "   -f <sender e-mail>  Default: nobody@nowhere)\n"
   ++ "   -e <error margin>   Default: 0.03)\n"
   ++ "   -b <branch>         Qt branch being tested\n"
   ++ "   -h                  Show this message)\n"]

/-- What a run of `main` does: its return value, what it writes to the two
streams, and the argument list of the `sendemail` process it starts, if any. -/
structure MainResult where
  exitCode : Int
  stdout : List String
  stderr : List String
  helper : Option (List String)
deriving DecidableEq

/-- The message of line 213, the text handed to the mail helper. -/
def mailBody (env : Env) (directory testResultsFormatted : String) : String :=
  arg "Discrepancies detected when running benchmarks today in %1" (env.baseName directory)
    ++ testResultsFormatted ++ "\n\nHave a nice day!"

/-- Lines 150-237 of `main`, with the variables the argument loop has set. -/
def run (env : Env) (program : String) (a : Arguments) : MainResult :=
  if a.helpRequested || a.directory = "" || a.email = "" then
    { exitCode := 1, stdout := [], stderr := usage program, helper := none }
  else
    let warnings := (entryInfoList env a.directory).flatMap collectDataWarnings
    let testResultsFormatted := formatResults env a.errorMargin (collectDataDirectory env a.directory)
    if testResultsFormatted ≠ "" then
      let process :=
        ["-s", a.smtpServer, "-f", a.senderEmail,
         "-u", "[Lancelot QmlBench] Discrepancies in benchmarks",
         "-t", a.email, "-m", mailBody env a.directory testResultsFormatted]
      if !env.waitForFinished then
        { exitCode := 2, stdout := ["Reporting to " ++ a.email ++ "\n"],
          stderr := warnings ++ ["sendemail failed\n"], helper := some process }
      else
        { exitCode := 0, stdout := ["Reporting to " ++ a.email ++ "\n"],
          stderr := warnings, helper := some process }
    else
      { exitCode := 0, stdout := ["Nothing to report\n"], stderr := warnings, helper := none }

/-- `int main(int argc, char **argv)`; `program` is `argv[0]` and `arguments`
are the arguments after it. -/
def main (env : Env) (program : String) (arguments : List String) : MainResult :=
  run env program (parseArguments env arguments {})

/-! ## Notions used in the statements -/

/-- The report is read and holds the key, and the key passes the test of line 71:
the loop of `collectData` reaches line 72 for this key. -/
def admits (env : Env) (fileInfo : QFileInfo) (key : String) : Bool :=
  fileInfo.canOpen && decide (key ∈ fileInfo.root.keys) && admitted env key

/-- The sample that lines 75-90 build for the key from a report, in a slot that
is still as constructed. -/
def sampleOf (env : Env) (fileInfo : QFileInfo) (key : String) : BenchmarkData :=
  fillData env fileInfo (readMetadata fileInfo.root) (fileInfo.root.value key) {}

/-- The number of populated slots of a pair. -/
def populated (dataPair : BenchmarkDataPair) : Nat :=
  (if dataPair.first.time.isValid then 1 else 0) + (if dataPair.second.time.isValid then 1 else 0)

/-- The pair made of the samples of the first two reports of a list: `first`
from the first report, `second` from the second one. -/
def firstTwoSamples (env : Env) (key : String) : List QFileInfo → BenchmarkDataPair
  | [] => {}
  | [f] => { first := sampleOf env f key }
  | f :: g :: _ => { first := sampleOf env f key, second := sampleOf env g key }

/-- What `collectData` on one report does to the pair of one key. -/
def stepPair (env : Env) (key : String) (dataPair : BenchmarkDataPair) (fileInfo : QFileInfo) :
    BenchmarkDataPair :=
  if admits env fileInfo key then
    fillPair env fileInfo (readMetadata fileInfo.root) (fileInfo.root.value key) dataPair
  else dataPair

/-- The arguments the loop of lines 119-148 reads neither as one of the options
`-s`, `-f`, `-e`, `-h` nor as the value of a preceding `-s`, `-f` or `-e`, when
it runs to the end of the argument list. -/
def positionalArguments : List String → List String
  | [] => []
  | [argument] =>
    if argument = "-s" ∨ argument = "-f" ∨ argument = "-e" ∨ argument = "-h" then []
    else [argument]
  | argument :: next :: rest =>
    if argument = "-s" ∨ argument = "-f" ∨ argument = "-e" then positionalArguments rest
    else if argument = "-h" then positionalArguments (next :: rest)
    else argument :: positionalArguments (next :: rest)

/-- The number of non-empty positional arguments. -/
def positionalCount (arguments : List String) : Nat :=
  ((positionalArguments arguments).filter (fun argument => argument ≠ "")).length

/-- The number of the variables `directory` and `email` that are still empty. -/
def unsetPositionals (a : Arguments) : Nat :=
  (if a.directory = "" then 1 else 0) + (if a.email = "" then 1 else 0)

/-- The result of `main` on the usage path (lines 153-166). -/
def usageExit (program : String) : MainResult :=
  { exitCode := 1, stdout := [], stderr := usage program, helper := none }

/-- The string holds no `%`: `QString::arg` finds no place marker in it. -/
def noPercent (s : String) : Prop := '%' ∉ s.data

/-- Whether a string holds a `%` can be computed. -/
instance decidableNoPercent (s : String) : Decidable (noPercent s) :=
  inferInstanceAs (Decidable ('%' ∉ s.data))

/-- Lines 188-206: the lines of a section that follow the `Average` line. -/
def environmentLines (dataPair : BenchmarkDataPair) : String :=
  arg (arg "        Results: %1 (was: %2)\n" (join "," dataPair.second.results))
        (join "," dataPair.first.results)
  ++ arg (arg "        Window size: %1 %2\n" dataPair.second.windowSize)
        (wasSuffix dataPair.second.windowSize dataPair.first.windowSize)
  ++ arg (arg "        Renderer: %1 %2\n" dataPair.second.renderer)
        (wasSuffix dataPair.second.renderer dataPair.first.renderer)
  ++ arg (arg "        Vendor: %1 %2\n" dataPair.second.vendor)
        (wasSuffix dataPair.second.vendor dataPair.first.vendor)
  ++ arg (arg "        Driver version: %1 %2\n" dataPair.second.driverVersion)
        (wasSuffix dataPair.second.driverVersion dataPair.first.driverVersion)
  ++ arg (arg "        Platform plugin: %1 %2\n" dataPair.second.platformPlugin)
        (wasSuffix dataPair.second.platformPlugin dataPair.first.platformPlugin)
  ++ arg (arg "        OS: %1 %2\n" dataPair.second.productName)
        (wasSuffix dataPair.second.productName dataPair.first.productName)

/-- The unset slots of a pair hold no results, as when they were constructed. -/
def unsetSlotsEmpty (dataPair : BenchmarkDataPair) : Prop :=
  (dataPair.first.time.isValid = false → dataPair.first.results = [])
  ∧ (dataPair.second.time.isValid = false → dataPair.second.results = [])

/-! ## Example inputs -/

/-- A host on which exactly the names `existing` are files, and whose directories
all hold the files `files`; numbers are rendered as `?`. -/
def exampleEnv (existing : List String) (files : List DirFile) : Env :=
  { fileExists := fun key => decide (key ∈ existing)
    number := fun _ => "?"
    argNumber := fun _ => "?"
    argNumberLocale := fun _ => "?"
    isoDate := fun _ => "T"
    toDouble := fun _ => (QReal.fin 0, false)
    baseName := fun directory => directory
    files := fun _ => files
    waitForFinished := true }

/-- A report with the benchmark `b1` of the given average. -/
def reportOf (average : ℚ) : QJsonObject :=
  [("id", QJsonValue.string "abc,def"),
   ("b1", QJsonValue.object [("average", QJsonValue.double (QReal.fin average))])]

/-- A report whose only benchmark key names no file. -/
def staleReport : QFileInfo :=
  { absoluteFilePath := "/reports/r.json"
    canOpen := true
    root := [("id", QJsonValue.string "abc,def"),
             ("./nonexistent.qml", QJsonValue.object [("average", QJsonValue.double (QReal.fin 3))])]
    lastModified := some 5 }

/-- A report that holds nothing but its `id`. -/
def idOnlyReport : QFileInfo :=
  { absoluteFilePath := "/reports/r.json"
    canOpen := true
    root := [("id", QJsonValue.string "abc,def")]
    lastModified := some 5 }

/-- A report for `b1` with two results, modified at the time 5. -/
def resultsReport : QFileInfo :=
  { absoluteFilePath := "/reports/r.json"
    canOpen := true
    root := [("id", QJsonValue.string "abc,def"),
             ("windowSize", QJsonValue.string "800x600"),
             ("b1", QJsonValue.object
                [("average", QJsonValue.double (QReal.fin 3)),
                 ("results", QJsonValue.array
                    [QJsonValue.double (QReal.fin 1), QJsonValue.double (QReal.fin 2)])])]
    lastModified := some 5 }

/-- A report whose `id` has no comma. -/
def plainIdReport : QFileInfo :=
  { absoluteFilePath := "/reports/r.json"
    canOpen := true
    root := [("id", QJsonValue.string "abc"),
             ("b1", QJsonValue.object [("average", QJsonValue.double (QReal.fin 3))])]
    lastModified := some 5 }

/-- Three reports for `b1`, in the order in which they are read. -/
def threeReports : List QFileInfo :=
  [ { absoluteFilePath := "/reports/a.json", canOpen := true, root := reportOf 10, lastModified := some 1 },
    { absoluteFilePath := "/reports/b.json", canOpen := true, root := reportOf 2, lastModified := some 2 },
    { absoluteFilePath := "/reports/c.json", canOpen := true, root := reportOf 3, lastModified := some 3 } ]

/-- A directory that holds one report for `b1`. -/
def oneFile : List DirFile :=
  [ { fileName := "only.json", mtime := 1, canOpen := true, root := reportOf 2 } ]

/-- Two reports for `b1`: the older one (time 1) with average 51/50, the newer
one (time 2) with average 1. -/
def twoFiles : List DirFile :=
  [ { fileName := "new.json", mtime := 2, canOpen := true, root := reportOf 1 },
    { fileName := "old.json", mtime := 1, canOpen := true, root := reportOf (51 / 50) } ]

/-- Three reports for `b1` in one directory: the newest (time 3) and the middle
one (time 2) with the average 2, the oldest (time 1) with the average 10. -/
def threeFiles : List DirFile :=
  [ { fileName := "newest.json", mtime := 3, canOpen := true, root := reportOf 2 },
    { fileName := "middle.json", mtime := 2, canOpen := true, root := reportOf 2 },
    { fileName := "oldest.json", mtime := 1, canOpen := true, root := reportOf 10 } ]

/-- The host of `exampleEnv` with report files of `twoFiles`, on which
`QString::toDouble` parses `0.05` and fails on every other string. -/
def parsingEnv : Env :=
  { exampleEnv ["b1"] twoFiles with
    toDouble := fun s => if s = "0.05" then (QReal.fin (1 / 20), true) else (QReal.fin 0, false) }

/-- A host that renders the times 1 and 2 as `T1` and `T2` and the numbers 1
and 2 as `1` and `2`. -/
def labelEnv : Env :=
  { exampleEnv [] [] with
    isoDate := fun t => if t = some 1 then "T1" else if t = some 2 then "T2" else ""
    argNumber := fun d =>
      if d = QReal.fin 1 then "1" else if d = QReal.fin 2 then "2" else "?" }

/-- A pair whose average rises from 1 in `first` to 2 in `second`. -/
def risingPair : BenchmarkDataPair :=
  { first := { average := QReal.fin 1, time := some 1 }
    second := { average := QReal.fin 2, time := some 2 } }

/-- A pair whose `first` has the average 0, with the given average in `second`. -/
def zeroFirstPair (average : ℚ) : BenchmarkDataPair :=
  { first := { average := QReal.fin 0, time := some 1 }
    second := { average := QReal.fin average, time := some 2 } }

/-- A pair whose samples differ in every field the section prints: `first` has
the commits `b1`, `d1`, the time 1 and the average 1, `second` the commits
`b2`, `d2`, the time 2 and the average 2. -/
def labelledPair : BenchmarkDataPair :=
  { first := { average := QReal.fin 1, time := some 1, baseCommit := "b1",
               declarativeCommit := "d1" }
    second := { average := QReal.fin 2, time := some 2, baseCommit := "b2",
                declarativeCommit := "d2" } }

/-! # Theorems -/

/-! ## The hash -/

namespace BenchmarkHash

theorem lookup_insert (key key' : String) (v : BenchmarkDataPair) (h : BenchmarkHash) :
    lookup key' (insert key v h) = if key = key' then some v else lookup key' h := by
  induction h with
  | nil =>
    by_cases hk : key = key' <;> simp [insert, lookup, hk]
  | cons e rest ih =>
    obtain ⟨k, w⟩ := e
    by_cases hkk : k = key
    · subst hkk
      by_cases hk : k = key' <;> simp [insert, lookup, hk]
    · by_cases hk : key = key'
      · subst hk
        simp [insert, lookup, hkk, ih]
      · simp only [insert, hkk, if_false, lookup, ih, hk]

theorem value_insert (key key' : String) (v : BenchmarkDataPair) (h : BenchmarkHash) :
    value (insert key v h) key' = if key = key' then v else value h key' := by
  unfold value
  rw [lookup_insert]
  by_cases hk : key = key' <;> simp [hk]

theorem mem_lookup {key : String} {p : BenchmarkDataPair} {h : BenchmarkHash}
    (hp : lookup key h = some p) : (key, p) ∈ h := by
  induction h with
  | nil => simp [lookup] at hp
  | cons e rest ih =>
    obtain ⟨k, w⟩ := e
    by_cases hk : k = key
    · subst hk
      simp [lookup] at hp
      simp [hp]
    · simp [lookup, hk] at hp
      exact List.mem_cons_of_mem _ (ih hp)

end BenchmarkHash

/-! ## One report -/

theorem lookup_collectEntry_of_ne (env : Env) (fileInfo : QFileInfo) (m : Metadata)
    (h : BenchmarkHash) {key key' : String} (hne : key ≠ key') :
    BenchmarkHash.lookup key' (collectEntry env fileInfo m h key) = BenchmarkHash.lookup key' h := by
  unfold collectEntry
  split
  · rw [BenchmarkHash.lookup_insert, if_neg hne]
  · rfl

theorem lookup_collectEntry_of_not_admitted (env : Env) (fileInfo : QFileInfo) (m : Metadata)
    (h : BenchmarkHash) {key : String} (key' : String) (hk : admitted env key = false) :
    BenchmarkHash.lookup key' (collectEntry env fileInfo m h key) = BenchmarkHash.lookup key' h := by
  simp [collectEntry, hk]

theorem lookup_collectEntry_self (env : Env) (fileInfo : QFileInfo) (m : Metadata)
    (h : BenchmarkHash) {key : String} (hk : admitted env key = true) :
    BenchmarkHash.lookup key (collectEntry env fileInfo m h key)
      = some (fillPair env fileInfo m (fileInfo.root.value key) (h.value key)) := by
  simp [collectEntry, hk, BenchmarkHash.lookup_insert]

theorem lookup_foldl_collectEntry_of_skipped (env : Env) (fileInfo : QFileInfo) (m : Metadata)
    (key : String) (ks : List String) (h : BenchmarkHash)
    (hk : key ∉ ks ∨ admitted env key = false) :
    BenchmarkHash.lookup key (ks.foldl (collectEntry env fileInfo m) h)
      = BenchmarkHash.lookup key h := by
  induction ks generalizing h with
  | nil => rfl
  | cons k rest ih =>
    rw [List.foldl_cons, ih]
    · by_cases hkk : k = key
      · subst hkk
        rcases hk with hk | hk
        · simp at hk
        · exact lookup_collectEntry_of_not_admitted env fileInfo m h k hk
      · exact lookup_collectEntry_of_ne env fileInfo m h hkk
    · rcases hk with hk | hk
      · exact Or.inl (fun hmem => hk (List.mem_cons_of_mem _ hmem))
      · exact Or.inr hk

theorem lookup_foldl_collectEntry_of_admitted (env : Env) (fileInfo : QFileInfo) (m : Metadata)
    (key : String) (ks : List String) (h : BenchmarkHash)
    (hnd : ks.Nodup) (hmem : key ∈ ks) (hk : admitted env key = true) :
    BenchmarkHash.lookup key (ks.foldl (collectEntry env fileInfo m) h)
      = some (fillPair env fileInfo m (fileInfo.root.value key) (h.value key)) := by
  induction ks generalizing h with
  | nil => simp at hmem
  | cons k rest ih =>
    rw [List.nodup_cons] at hnd
    rw [List.foldl_cons]
    by_cases hkk : k = key
    · subst hkk
      rw [lookup_foldl_collectEntry_of_skipped env fileInfo m k rest _ (Or.inl hnd.1)]
      exact lookup_collectEntry_self env fileInfo m h hk
    · have hmem' : key ∈ rest := by
        rcases List.mem_cons.mp hmem with h1 | h1
        · exact absurd h1.symm hkk
        · exact h1
      rw [ih _ hnd.2 hmem']
      unfold BenchmarkHash.value
      rw [lookup_collectEntry_of_ne env fileInfo m h hkk]

theorem lookup_collectData_of_not_admits (env : Env) (fileInfo : QFileInfo) (h : BenchmarkHash)
    {key : String} (hk : admits env fileInfo key = false) :
    BenchmarkHash.lookup key (collectData env fileInfo h) = BenchmarkHash.lookup key h := by
  unfold collectData
  by_cases ho : fileInfo.canOpen = true
  · simp only [ho, Bool.not_true, Bool.false_eq_true, if_false]
    apply lookup_foldl_collectEntry_of_skipped
    simp only [admits, ho, Bool.true_and, Bool.and_eq_false_iff, decide_eq_false_iff_not] at hk
    exact hk
  · simp [ho]

theorem lookup_collectData_of_admits (env : Env) (fileInfo : QFileInfo) (h : BenchmarkHash)
    {key : String} (hk : admits env fileInfo key = true) :
    BenchmarkHash.lookup key (collectData env fileInfo h)
      = some (fillPair env fileInfo (readMetadata fileInfo.root) (fileInfo.root.value key)
          (h.value key)) := by
  simp only [admits, Bool.and_eq_true, decide_eq_true_eq] at hk
  obtain ⟨⟨ho, hmem⟩, hadm⟩ := hk
  unfold collectData
  simp only [ho, Bool.not_true, Bool.false_eq_true, if_false]
  exact lookup_foldl_collectEntry_of_admitted env fileInfo _ key _ h (List.nodup_dedup _) hmem hadm

/-! ## The filter of line 71 -/

/-- C8: a key for which no file of that name exists is never admitted as a
benchmark: after `collectData` has read a report, the hash holds under that key
exactly what it held before (no entry is created, none is modified). -/
theorem collectData_ignores_missing_file (env : Env) (fileInfo : QFileInfo)
    (benchmarkDatas : BenchmarkHash) (key : String) (hfile : env.fileExists key = false) :
    BenchmarkHash.lookup key (collectData env fileInfo benchmarkDatas)
      = BenchmarkHash.lookup key benchmarkDatas := by
  apply lookup_collectData_of_not_admits
  simp [admits, admitted, hfile]

/-- C8 at the report `staleReport`, on a host where only `b1` is a file. -/
theorem collectData_ignores_missing_file_witness :
    (exampleEnv ["b1"] []).fileExists "./nonexistent.qml" = false
    ∧ BenchmarkHash.lookup "./nonexistent.qml" (collectData (exampleEnv ["b1"] []) staleReport [])
        = BenchmarkHash.lookup "./nonexistent.qml" [] :=
  ⟨by decide,
   collectData_ignores_missing_file (exampleEnv ["b1"] []) staleReport [] "./nonexistent.qml"
     (by decide)⟩

theorem collectData_skips_excluded_key (env : Env) (fileInfo : QFileInfo)
    (benchmarkDatas : BenchmarkHash) (key : String)
    (hkey : key = "os" ∨ key = "opengl" ∨ key = "windowSize") :
    BenchmarkHash.lookup key (collectData env fileInfo benchmarkDatas)
      = BenchmarkHash.lookup key benchmarkDatas := by
  apply lookup_collectData_of_not_admits
  rcases hkey with h | h | h <;> subst h <;> simp [admits, admitted]

/-- C9: the key `id` is not among the keys excluded at line 71: on a host where a
file named `id` exists, `collectData` stores a sample under `id`, built from the
string value of the key (average 0, no results). -/
theorem collectData_admits_id :
    BenchmarkHash.lookup "id" (collectData (exampleEnv ["id"] []) idOnlyReport [])
      = some { first := { time := some 5, baseCommit := "abc", declarativeCommit := "def" } } := by
  decide

/-! ## The reports read one after the other -/

theorem value_collectData (env : Env) (fileInfo : QFileInfo) (h : BenchmarkHash) (key : String) :
    (collectData env fileInfo h).value key = stepPair env key (h.value key) fileInfo := by
  unfold stepPair
  by_cases hk : admits env fileInfo key = true
  · rw [if_pos hk]
    unfold BenchmarkHash.value
    rw [lookup_collectData_of_admits env fileInfo h hk]
    rfl
  · rw [if_neg hk]
    unfold BenchmarkHash.value
    rw [lookup_collectData_of_not_admits env fileInfo h (by simpa using hk)]

theorem value_foldl_collectData (env : Env) (key : String) (reports : List QFileInfo)
    (h : BenchmarkHash) :
    (reports.foldl (fun ret entry => collectData env entry ret) h).value key
      = reports.foldl (stepPair env key) (h.value key) := by
  induction reports generalizing h with
  | nil => rfl
  | cons f rest ih => rw [List.foldl_cons, List.foldl_cons, ih, value_collectData]

theorem stepPair_full (env : Env) (key : String) (dataPair : BenchmarkDataPair)
    (fileInfo : QFileInfo) (h1 : dataPair.first.time.isValid = true)
    (h2 : dataPair.second.time.isValid = true) :
    stepPair env key dataPair fileInfo = dataPair := by
  simp [stepPair, fillPair, h1, h2]

theorem foldl_stepPair_full (env : Env) (key : String) (dataPair : BenchmarkDataPair)
    (reports : List QFileInfo) (h1 : dataPair.first.time.isValid = true)
    (h2 : dataPair.second.time.isValid = true) :
    reports.foldl (stepPair env key) dataPair = dataPair := by
  induction reports with
  | nil => rfl
  | cons f rest ih => rw [List.foldl_cons, stepPair_full env key dataPair f h1 h2, ih]

theorem fillPair_first_unset (env : Env) (fileInfo : QFileInfo) (m : Metadata) (value : QJsonValue)
    (dataPair : BenchmarkDataPair) (h1 : dataPair.first.time.isValid = false) :
    fillPair env fileInfo m value dataPair
      = { dataPair with first := fillData env fileInfo m value dataPair.first } := by
  simp [fillPair, h1]

theorem fillPair_second_unset (env : Env) (fileInfo : QFileInfo) (m : Metadata) (value : QJsonValue)
    (dataPair : BenchmarkDataPair) (h1 : dataPair.first.time.isValid = true)
    (h2 : dataPair.second.time.isValid = false) :
    fillPair env fileInfo m value dataPair
      = { dataPair with second := fillData env fileInfo m value dataPair.second } := by
  simp [fillPair, h1, h2]

theorem sampleOf_time (env : Env) (fileInfo : QFileInfo) (key : String) :
    (sampleOf env fileInfo key).time = fileInfo.lastModified := rfl

theorem foldl_stepPair_half (env : Env) (key : String) (f : QFileInfo)
    (hf : f.lastModified.isValid = true) (reports : List QFileInfo)
    (hvalid : ∀ g ∈ reports, g.lastModified.isValid = true) :
    reports.foldl (stepPair env key) { first := sampleOf env f key }
      = firstTwoSamples env key (f :: reports.filter (fun g => admits env g key)) := by
  induction reports with
  | nil => rfl
  | cons g rest ih =>
    rw [List.foldl_cons]
    by_cases hg : admits env g key = true
    · have hstep : stepPair env key { first := sampleOf env f key } g
          = { first := sampleOf env f key, second := sampleOf env g key } := by
        unfold stepPair
        rw [if_pos hg]
        exact fillPair_second_unset env g _ _ _ hf rfl
      rw [hstep, foldl_stepPair_full env key _ rest (by simpa [sampleOf_time] using hf)
        (by simpa [sampleOf_time] using hvalid g (List.mem_cons_self _ _))]
      simp [List.filter_cons, hg, firstTwoSamples]
    · have hstep : stepPair env key { first := sampleOf env f key } g
          = { first := sampleOf env f key } := by
        simp [stepPair, hg]
      rw [hstep, ih (fun x hx => hvalid x (List.mem_cons_of_mem _ hx))]
      simp [List.filter_cons, hg]

theorem foldl_stepPair_empty (env : Env) (key : String) (reports : List QFileInfo)
    (hvalid : ∀ g ∈ reports, g.lastModified.isValid = true) :
    reports.foldl (stepPair env key) {}
      = firstTwoSamples env key (reports.filter (fun g => admits env g key)) := by
  induction reports with
  | nil => rfl
  | cons g rest ih =>
    rw [List.foldl_cons]
    by_cases hg : admits env g key = true
    · have hstep : stepPair env key {} g = { first := sampleOf env g key } := by
        unfold stepPair
        rw [if_pos hg]
        exact fillPair_first_unset env g _ _ _ rfl
      rw [hstep, foldl_stepPair_half env key g (hvalid g (List.mem_cons_self _ _)) rest
        (fun x hx => hvalid x (List.mem_cons_of_mem _ hx))]
      simp [List.filter_cons, hg]
    · have hstep : stepPair env key {} g = {} := by
        simp [stepPair, hg]
      rw [hstep, ih (fun x hx => hvalid x (List.mem_cons_of_mem _ hx))]
      simp [List.filter_cons, hg]

theorem populated_firstTwoSamples (env : Env) (key : String) (l : List QFileInfo)
    (hvalid : ∀ f ∈ l, f.lastModified.isValid = true) :
    populated (firstTwoSamples env key l) = min 2 l.length := by
  match l, hvalid with
  | [], _ => rfl
  | [f], hv =>
    have hf := hv f (List.mem_cons_self _ _)
    simp [firstTwoSamples, populated, sampleOf_time, hf]
    rfl
  | f :: g :: rest, hv =>
    have hf := hv f (List.mem_cons_self _ _)
    have hg := hv g (List.mem_cons_of_mem _ (List.mem_cons_self _ _))
    simp [firstTwoSamples, populated, sampleOf_time, hf, hg]

theorem valid_of_populated_two (dataPair : BenchmarkDataPair) (h : populated dataPair = 2) :
    dataPair.first.time.isValid = true ∧ dataPair.second.time.isValid = true := by
  unfold populated at h
  cases h1 : dataPair.first.time.isValid <;> cases h2 : dataPair.second.time.isValid <;>
    simp [h1, h2] at h ⊢

/-- C7: when reports with valid modification times are read one after the other
into an empty hash, the pair of every benchmark name holds in `first` the sample
of the first report that admits the name and in `second` the sample of the
second one; the number of populated slots is the minimum of 2 and the number of
admitting reports; and once two reports have admitted the name, reading a
further report leaves the pair as it is. -/
theorem collectData_keeps_first_two (env : Env) (reports : List QFileInfo) (key : String)
    (hvalid : ∀ f ∈ reports, f.lastModified.isValid = true) :
    (reports.foldl (fun ret entry => collectData env entry ret) []).value key
        = firstTwoSamples env key (reports.filter (fun f => admits env f key))
    ∧ populated ((reports.foldl (fun ret entry => collectData env entry ret) []).value key)
        = min 2 (reports.filter (fun f => admits env f key)).length
    ∧ (2 ≤ (reports.filter (fun f => admits env f key)).length →
        ∀ later : QFileInfo,
          (collectData env later
              (reports.foldl (fun ret entry => collectData env entry ret) [])).value key
            = (reports.foldl (fun ret entry => collectData env entry ret) []).value key) := by
  have hmain : (reports.foldl (fun ret entry => collectData env entry ret) []).value key
      = firstTwoSamples env key (reports.filter (fun f => admits env f key)) := by
    rw [value_foldl_collectData]
    exact foldl_stepPair_empty env key reports hvalid
  have hfiltered : ∀ f ∈ reports.filter (fun f => admits env f key),
      f.lastModified.isValid = true := fun f hf => hvalid f (List.mem_of_mem_filter hf)
  refine ⟨hmain, ?_, ?_⟩
  · rw [hmain]
    exact populated_firstTwoSamples env key _ hfiltered
  · intro hlen later
    rw [value_collectData]
    have hpop := populated_firstTwoSamples env key _ hfiltered
    rw [← hmain, Nat.min_eq_left hlen] at hpop
    exact stepPair_full env key _ later (valid_of_populated_two _ hpop).1
      (valid_of_populated_two _ hpop).2

/-- C7 at three reports for `b1`: the pair holds the samples of the first two. -/
theorem collectData_keeps_first_two_witness :
    (∀ f ∈ threeReports, f.lastModified.isValid = true)
    ∧ (threeReports.foldl (fun ret entry => collectData (exampleEnv ["b1"] []) entry ret) []).value "b1"
        = firstTwoSamples (exampleEnv ["b1"] []) "b1"
            (threeReports.filter (fun f => admits (exampleEnv ["b1"] []) f "b1")) :=
  ⟨by decide, (collectData_keeps_first_two (exampleEnv ["b1"] []) threeReports "b1" (by decide)).1⟩

/-! ## The order of the scan -/

theorem mem_insertEntry (x z : DirFile) (l : List DirFile) :
    z ∈ insertEntry x l ↔ z = x ∨ z ∈ l := by
  induction l with
  | nil => simp [insertEntry]
  | cons y ys ih =>
    unfold insertEntry
    split
    · simp
    · simp only [List.mem_cons, ih]
      tauto

theorem mtime_le_of_sortsBefore {a b : DirFile} (h : sortsBefore a b = true) :
    a.mtime ≤ b.mtime := by
  simp only [sortsBefore, Bool.or_eq_true, Bool.and_eq_true, decide_eq_true_eq] at h
  rcases h with h | h
  · exact le_of_lt h
  · exact le_of_eq h.1

theorem mtime_le_of_not_sortsBefore {a b : DirFile} (h : sortsBefore a b = false) :
    b.mtime ≤ a.mtime := by
  simp only [sortsBefore, Bool.or_eq_false_iff, decide_eq_false_iff_not] at h
  exact not_lt.mp h.1

theorem pairwise_insertEntry (x : DirFile) (l : List DirFile)
    (hl : l.Pairwise (fun a b => a.mtime ≤ b.mtime)) :
    (insertEntry x l).Pairwise (fun a b => a.mtime ≤ b.mtime) := by
  induction l with
  | nil => simp [insertEntry]
  | cons y ys ih =>
    rw [List.pairwise_cons] at hl
    unfold insertEntry
    split
    · rename_i hxy
      have hxy' := mtime_le_of_sortsBefore hxy
      refine List.pairwise_cons.mpr ⟨?_, List.pairwise_cons.mpr hl⟩
      intro z hz
      rcases List.mem_cons.mp hz with hz | hz
      · rw [hz]; exact hxy'
      · exact le_trans hxy' (hl.1 z hz)
    · rename_i hxy
      have hyx := mtime_le_of_not_sortsBefore (by simpa using hxy)
      refine List.pairwise_cons.mpr ⟨?_, ih hl.2⟩
      intro z hz
      rcases (mem_insertEntry x z ys).mp hz with hz | hz
      · rw [hz]; exact hyx
      · exact hl.1 z hz

theorem pairwise_sortEntries (l : List DirFile) :
    (sortEntries l).Pairwise (fun a b => a.mtime ≤ b.mtime) := by
  induction l with
  | nil => simp [sortEntries]
  | cons x xs ih => exact pairwise_insertEntry x _ ih

theorem pairwise_entryInfoList (env : Env) (directory : String) :
    (entryInfoList env directory).Pairwise
      (fun a b => ∀ t₁ t₂ : Int, a.lastModified = some t₁ → b.lastModified = some t₂ → t₁ ≤ t₂) := by
  unfold entryInfoList
  rw [List.pairwise_map]
  refine (pairwise_sortEntries _).imp ?_
  intro a b hab t₁ t₂ h1 h2
  simp only [DirFile.info, Option.some.injEq] at h1 h2
  omega

theorem valid_entryInfoList (env : Env) (directory : String) :
    ∀ f ∈ entryInfoList env directory, f.lastModified.isValid = true := by
  intro f hf
  unfold entryInfoList at hf
  obtain ⟨d, _, rfl⟩ := List.mem_map.mp hf
  rfl

/-! ## The keys of the hash -/

theorem keys_insert (key : String) (v : BenchmarkDataPair) (h : BenchmarkHash) :
    (BenchmarkHash.insert key v h).map Prod.fst
      = if key ∈ h.map Prod.fst then h.map Prod.fst else h.map Prod.fst ++ [key] := by
  induction h with
  | nil => simp [BenchmarkHash.insert]
  | cons e rest ih =>
    obtain ⟨k, w⟩ := e
    by_cases hk : k = key
    · subst hk
      simp [BenchmarkHash.insert]
    · have hk' : ¬ key = k := fun hc => hk hc.symm
      simp only [BenchmarkHash.insert, hk, if_false, List.map_cons, ih, List.mem_cons, hk',
        false_or]
      split <;> simp

theorem nodup_keys_insert (key : String) (v : BenchmarkDataPair) (h : BenchmarkHash)
    (hnd : (h.map Prod.fst).Nodup) : ((BenchmarkHash.insert key v h).map Prod.fst).Nodup := by
  rw [keys_insert]
  split
  · exact hnd
  · rename_i hk
    exact List.Nodup.append hnd (List.nodup_singleton _) (by simpa using hk)

theorem nodup_keys_collectData (env : Env) (fileInfo : QFileInfo) (h : BenchmarkHash)
    (hnd : (h.map Prod.fst).Nodup) : ((collectData env fileInfo h).map Prod.fst).Nodup := by
  unfold collectData
  split
  · exact hnd
  · generalize fileInfo.root.keys = ks
    induction ks generalizing h with
    | nil => exact hnd
    | cons k rest ih =>
      rw [List.foldl_cons]
      apply ih
      unfold collectEntry
      split
      · exact nodup_keys_insert _ _ _ hnd
      · exact hnd

theorem nodup_keys_foldl_collectData (env : Env) (reports : List QFileInfo) (h : BenchmarkHash)
    (hnd : (h.map Prod.fst).Nodup) :
    ((reports.foldl (fun ret entry => collectData env entry ret) h).map Prod.fst).Nodup := by
  induction reports generalizing h with
  | nil => exact hnd
  | cons f rest ih =>
    rw [List.foldl_cons]
    exact ih _ (nodup_keys_collectData env f h hnd)

theorem lookup_of_mem {key : String} {p : BenchmarkDataPair} {h : BenchmarkHash}
    (hnd : (h.map Prod.fst).Nodup) (hp : (key, p) ∈ h) : BenchmarkHash.lookup key h = some p := by
  induction h with
  | nil => simp at hp
  | cons e rest ih =>
    obtain ⟨k, w⟩ := e
    rw [List.map_cons, List.nodup_cons] at hnd
    rcases List.mem_cons.mp hp with hp | hp
    · cases hp
      simp [BenchmarkHash.lookup]
    · have hk : k ≠ key := by
        intro hc
        subst hc
        exact hnd.1 (List.mem_map.mpr ⟨(k, p), hp, rfl⟩)
      simp only [BenchmarkHash.lookup, hk, if_false]
      exact ih hnd.2 hp

theorem value_of_mem_collectDataDirectory (env : Env) (directory : String) {key : String}
    {p : BenchmarkDataPair} (hp : (key, p) ∈ collectDataDirectory env directory) :
    p = firstTwoSamples env key
      ((entryInfoList env directory).filter (fun f => admits env f key)) := by
  have hl := lookup_of_mem (nodup_keys_foldl_collectData env (entryInfoList env directory) []
    (by simp)) hp
  have hv : (collectDataDirectory env directory).value key = p := by
    unfold BenchmarkHash.value
    unfold collectDataDirectory
    rw [hl]
    rfl
  rw [← hv]
  unfold collectDataDirectory
  rw [value_foldl_collectData]
  exact foldl_stepPair_empty env key _ (valid_entryInfoList env directory)

/-- C2, as the code has it: in every pair of the result of
`collectData(directory)` that has both slots populated, the time of `first`
is at most the time of `second`; `first` holds the older sample. -/
theorem collectDataDirectory_first_is_older (env : Env) (directory : String) (key : String)
    (p : BenchmarkDataPair) (t₁ t₂ : Int)
    (hp : (key, p) ∈ collectDataDirectory env directory)
    (h1 : p.first.time = some t₁) (h2 : p.second.time = some t₂) : t₁ ≤ t₂ := by
  have hpair := value_of_mem_collectDataDirectory env directory hp
  have hsorted := (pairwise_entryInfoList env directory).filter (fun f => admits env f key)
  generalize (entryInfoList env directory).filter (fun f => admits env f key) = l at hpair hsorted
  match l, hpair, hsorted with
  | [], hpair, _ =>
    rw [hpair] at h1
    simp [firstTwoSamples] at h1
  | [f], hpair, _ =>
    rw [hpair] at h2
    simp [firstTwoSamples] at h2
  | f :: g :: rest, hpair, hsorted =>
    rw [hpair] at h1 h2
    simp only [firstTwoSamples, sampleOf_time] at h1 h2
    exact (List.pairwise_cons.mp hsorted).1 g (List.mem_cons_self _ _) t₁ t₂ h1 h2

/-- C2 at a directory of two reports: the pair of `b1` has the time 1 in `first`
and the time 2 in `second`. -/
theorem collectDataDirectory_first_is_older_witness :
    ("b1", (collectDataDirectory (exampleEnv ["b1"] twoFiles) "dir").value "b1")
        ∈ collectDataDirectory (exampleEnv ["b1"] twoFiles) "dir"
    ∧ ((collectDataDirectory (exampleEnv ["b1"] twoFiles) "dir").value "b1").first.time = some 1
    ∧ ((collectDataDirectory (exampleEnv ["b1"] twoFiles) "dir").value "b1").second.time = some 2
    ∧ (1 : Int) ≤ 2 :=
  ⟨by decide!, by decide, by decide,
   collectDataDirectory_first_is_older (exampleEnv ["b1"] twoFiles) "dir" "b1"
     ((collectDataDirectory (exampleEnv ["b1"] twoFiles) "dir").value "b1") 1 2
     (by decide!) (by decide) (by decide)⟩

/-- C2 as stated fails: at a directory of two reports for `b1` modified at the
times 1 and 2, both slots of the pair are populated, `first` has the time 1
and `second` the time 2, so the time of `first` is not at least that of `second`. -/
theorem collectDataDirectory_first_not_newer :
    ("b1", (collectDataDirectory (exampleEnv ["b1"] twoFiles) "dir").value "b1")
        ∈ collectDataDirectory (exampleEnv ["b1"] twoFiles) "dir"
    ∧ ((collectDataDirectory (exampleEnv ["b1"] twoFiles) "dir").value "b1").first.time = some 1
    ∧ ((collectDataDirectory (exampleEnv ["b1"] twoFiles) "dir").value "b1").second.time = some 2
    ∧ ¬ (∀ t₁ t₂ : Int,
        ((collectDataDirectory (exampleEnv ["b1"] twoFiles) "dir").value "b1").first.time = some t₁ →
        ((collectDataDirectory (exampleEnv ["b1"] twoFiles) "dir").value "b1").second.time = some t₂ →
        t₂ ≤ t₁) := by
  refine ⟨by decide!, by decide, by decide, ?_⟩
  intro h
  have := h 1 2 (by decide) (by decide)
  omega

/-! ## The comparator -/

theorem QReal.le_trans {a b c : QReal} (hab : QReal.le a b = true) (hbc : QReal.le b c = true) :
    QReal.le a c = true := by
  cases a <;> cases b <;> cases c <;> simp_all [QReal.le]
  exact hab.trans hbc

theorem QReal.le_of_lt {a b : QReal} (hab : QReal.lt a b = true) : QReal.le a b = true := by
  cases a <;> cases b <;> simp_all [QReal.le, QReal.lt]
  exact hab.le

theorem QReal.not_le_of_lt {a b : QReal} (hab : QReal.lt a b = true) : QReal.le b a = false := by
  cases a <;> cases b <;> simp_all [QReal.le, QReal.lt]

theorem QReal.qAbs_qAbs (x : QReal) : QReal.qAbs (QReal.qAbs x) = QReal.qAbs x := by
  cases x with
  | nan => simp [QReal.qAbs, QReal.ge, QReal.le, QReal.neg]
  | posInf => simp [QReal.qAbs, QReal.ge, QReal.le]
  | negInf => simp [QReal.qAbs, QReal.ge, QReal.le, QReal.neg]
  | fin q =>
    by_cases hq : 0 ≤ q
    · simp [QReal.qAbs, QReal.ge, QReal.le, hq]
    · have hq' : 0 ≤ -q := by linarith
      simp [QReal.qAbs, QReal.ge, QReal.le, hq, QReal.neg, hq']

theorem QReal.lt_qAbs_zero (x : QReal) : QReal.lt (QReal.qAbs x) (QReal.fin 0) = false := by
  cases x with
  | nan => simp [QReal.qAbs, QReal.ge, QReal.le, QReal.neg, QReal.lt]
  | posInf => simp [QReal.qAbs, QReal.ge, QReal.le, QReal.lt]
  | negInf => simp [QReal.qAbs, QReal.ge, QReal.le, QReal.neg, QReal.lt]
  | fin q =>
    by_cases hq : 0 ≤ q
    · simp [QReal.qAbs, QReal.ge, QReal.le, hq, QReal.lt]
    · have hq' : 0 ≤ -q := by linarith
      simp [QReal.qAbs, QReal.ge, QReal.le, hq, QReal.neg, QReal.lt]
      linarith

theorem appendSection_eq (env : Env) (errorMargin : QReal) (acc key : String)
    (dataPair : BenchmarkDataPair) :
    appendSection env errorMargin acc (key, dataPair)
      = if flagged errorMargin dataPair then acc ++ sectionText env key dataPair else acc := by
  unfold appendSection flagged
  cases h1 : dataPair.first.time.isValid <;> cases h2 : dataPair.second.time.isValid <;>
    cases h3 : QReal.ge (QReal.qAbs (difference dataPair)) errorMargin <;> simp

theorem heading_difference (dataPair : BenchmarkDataPair) :
    heading (difference dataPair) = "\n\n____REGRESSION DETECTED_____\n" := by
  unfold heading difference
  rw [QReal.lt_qAbs_zero]
  rfl

/-- C3, as the code has it: a flagged pair whose quotient
`(second.average - first.average) / first.average` is not negative (for a positive
`first.average`: whose average did not fall from `first`, the previous sample, to
`second`, the current one) gets a section headed REGRESSION. -/
theorem appendSection_regression_of_rise (env : Env) (key : String) (errorMargin : QReal)
    (dataPair : BenchmarkDataPair) (hflag : flagged errorMargin dataPair = true)
    (hrise : QReal.ge (QReal.div (QReal.sub dataPair.second.average dataPair.first.average)
      dataPair.first.average) (QReal.fin 0) = true) :
    appendSection env errorMargin "" (key, dataPair)
      = "\n\n____REGRESSION DETECTED_____\n" ++ details env key dataPair (difference dataPair) := by
  rw [appendSection_eq, if_pos hflag]
  unfold sectionText
  unfold difference
  unfold QReal.qAbs
  rw [if_pos hrise]
  have hlt : QReal.lt (QReal.div (QReal.sub dataPair.second.average dataPair.first.average)
      dataPair.first.average) (QReal.fin 0) = false := by
    have := QReal.not_le_of_lt (a := QReal.div (QReal.sub dataPair.second.average
      dataPair.first.average) dataPair.first.average) (b := QReal.fin 0)
    unfold QReal.ge at hrise
    cases hc : QReal.lt (QReal.div (QReal.sub dataPair.second.average dataPair.first.average)
      dataPair.first.average) (QReal.fin 0)
    · rfl
    · rw [this hc] at hrise
      exact absurd hrise (by simp)
  unfold heading
  rw [hlt]
  simp

/-- C3 at the pair whose average rises from 1 to 2, with the margin 1/100. -/
theorem appendSection_regression_of_rise_witness :
    flagged (QReal.fin (1 / 100)) risingPair = true
    ∧ QReal.ge (QReal.div (QReal.sub risingPair.second.average risingPair.first.average)
        risingPair.first.average) (QReal.fin 0) = true
    ∧ appendSection (exampleEnv [] []) (QReal.fin (1 / 100)) "" ("b1", risingPair)
        = "\n\n____REGRESSION DETECTED_____\n"
            ++ details (exampleEnv [] []) "b1" risingPair (difference risingPair) :=
  ⟨by decide!, by decide!,
   appendSection_regression_of_rise (exampleEnv [] []) "b1" (QReal.fin (1 / 100)) risingPair
     (by decide!) (by decide!)⟩

/-- C3 as stated fails: the pair with `first.average = 1` and `second.average = 2`
is flagged under the margin 1/100 and `first.average` is smaller than
`second.average`, yet its section is headed REGRESSION and not IMPROVEMENT. -/
theorem heading_not_by_order :
    flagged (QReal.fin (1 / 100)) risingPair = true
    ∧ QReal.lt risingPair.first.average risingPair.second.average = true
    ∧ QReal.gt risingPair.first.average risingPair.second.average = false
    ∧ heading (difference risingPair) = "\n\n____REGRESSION DETECTED_____\n"
    ∧ ¬ ((heading (difference risingPair) = "\n\n____REGRESSION DETECTED_____\n"
            ↔ QReal.gt risingPair.first.average risingPair.second.average = true)
        ∧ (heading (difference risingPair) = "\n\n____IMPROVEMENT DETECTED____\n"
            ↔ QReal.lt risingPair.first.average risingPair.second.average = true)) := by
  refine ⟨by decide!, by decide!, by decide!, by decide!, ?_⟩
  intro h
  have h1 := h.1.mp (by decide!)
  exact absurd h1 (by decide!)

/-- C5, as the code has it: a pair with both slots populated whose
`first.average` is 0 is left without a section exactly when `second.average` is 0
as well or is not a number, or the margin is not a number; with any other
`second.average` the quotient is infinite and the pair is flagged. -/
theorem flagged_of_zero_first (errorMargin : QReal) (dataPair : BenchmarkDataPair)
    (hzero : dataPair.first.average = QReal.fin 0)
    (h1 : dataPair.first.time.isValid = true) (h2 : dataPair.second.time.isValid = true) :
    (flagged errorMargin dataPair = false
      ↔ (dataPair.second.average = QReal.fin 0 ∨ dataPair.second.average = QReal.nan
          ∨ errorMargin = QReal.nan))
    ∧ (dataPair.second.average = QReal.fin 0 →
        ∀ (env : Env) (key testResultsFormatted : String),
          appendSection env errorMargin testResultsFormatted (key, dataPair)
            = testResultsFormatted) := by
  have hiff : flagged errorMargin dataPair = false
      ↔ (dataPair.second.average = QReal.fin 0 ∨ dataPair.second.average = QReal.nan
          ∨ errorMargin = QReal.nan) := by
    unfold flagged difference
    rw [hzero, h1, h2]
    cases hb : dataPair.second.average with
    | nan =>
      cases errorMargin <;> simp [QReal.sub, QReal.div, QReal.qAbs, QReal.ge, QReal.le, QReal.neg]
    | posInf =>
      cases errorMargin <;> simp [QReal.sub, QReal.div, QReal.qAbs, QReal.ge, QReal.le, QReal.neg]
    | negInf =>
      cases errorMargin <;> simp [QReal.sub, QReal.div, QReal.qAbs, QReal.ge, QReal.le, QReal.neg]
    | fin q =>
      by_cases hq : q = 0
      · subst hq
        cases errorMargin <;>
          simp [QReal.sub, QReal.div, QReal.qAbs, QReal.ge, QReal.le, QReal.neg]
      · by_cases hneg : q < 0
        · cases errorMargin <;>
            simp [QReal.sub, QReal.div, QReal.qAbs, QReal.ge, QReal.le, QReal.neg, hq, hneg]
        · cases errorMargin <;>
            simp [QReal.sub, QReal.div, QReal.qAbs, QReal.ge, QReal.le, QReal.neg, hq, hneg]
  refine ⟨hiff, ?_⟩
  intro hb env key acc
  rw [appendSection_eq, hiff.mpr (Or.inl hb)]
  simp

/-- C5 at the pair whose two averages are 0, with the margin 1/100. -/
theorem flagged_of_zero_first_witness :
    (zeroFirstPair 0).first.average = QReal.fin 0
    ∧ (zeroFirstPair 0).first.time.isValid = true
    ∧ (zeroFirstPair 0).second.time.isValid = true
    ∧ (flagged (QReal.fin (1 / 100)) (zeroFirstPair 0) = false
        ↔ ((zeroFirstPair 0).second.average = QReal.fin 0
            ∨ (zeroFirstPair 0).second.average = QReal.nan
            ∨ QReal.fin (1 / 100) = QReal.nan)) :=
  ⟨rfl, rfl, rfl,
   (flagged_of_zero_first (QReal.fin (1 / 100)) (zeroFirstPair 0) rfl rfl rfl).1⟩

/-- C5 as stated fails: the pair with `first.average = 0` and `second.average = 1`
has both slots populated and is flagged under the margin 1/100; a section is
appended for it. -/
theorem flagged_zero_first_one :
    (zeroFirstPair 1).first.average = QReal.fin 0
    ∧ (zeroFirstPair 1).first.time.isValid = true
    ∧ (zeroFirstPair 1).second.time.isValid = true
    ∧ difference (zeroFirstPair 1) = QReal.posInf
    ∧ flagged (QReal.fin (1 / 100)) (zeroFirstPair 1) = true
    ∧ appendSection (exampleEnv [] []) (QReal.fin (1 / 100)) "" ("b1", zeroFirstPair 1) ≠ "" := by
  refine ⟨rfl, rfl, rfl, by decide!, by decide!, by decide!⟩

/-- C6: a pair flagged under a margin is flagged under every smaller margin, and
a pair whose relative change is below the margin gets no section. -/
theorem flagged_of_le_margin (env : Env) (m m' : QReal) (dataPair : BenchmarkDataPair)
    (key testResultsFormatted : String) :
    (QReal.le m m' = true → flagged m' dataPair = true → flagged m dataPair = true)
    ∧ (QReal.lt (difference dataPair) m = true →
        flagged m dataPair = false
        ∧ appendSection env m testResultsFormatted (key, dataPair) = testResultsFormatted) := by
  constructor
  · intro hle hflag
    unfold flagged at hflag ⊢
    simp only [Bool.and_eq_true] at hflag ⊢
    refine ⟨hflag.1, ?_⟩
    unfold QReal.ge at hflag ⊢
    exact QReal.le_trans hle hflag.2
  · intro hlt
    have hnot : flagged m dataPair = false := by
      unfold flagged
      have hd : QReal.qAbs (difference dataPair) = difference dataPair := by
        unfold difference
        exact QReal.qAbs_qAbs _
      rw [hd]
      unfold QReal.ge
      rw [QReal.not_le_of_lt hlt]
      simp
    refine ⟨hnot, ?_⟩
    rw [appendSection_eq, hnot]
    simp

/-- C6 at the pair whose average rises from 1 to 2: flagged under the margin 1/2,
hence under the margin 1/100. -/
theorem flagged_of_le_margin_witness :
    QReal.le (QReal.fin (1 / 100)) (QReal.fin (1 / 2)) = true
    ∧ flagged (QReal.fin (1 / 2)) risingPair = true
    ∧ flagged (QReal.fin (1 / 100)) risingPair = true :=
  ⟨by decide!, by decide!,
   (flagged_of_le_margin (exampleEnv [] []) (QReal.fin (1 / 100)) (QReal.fin (1 / 2)) risingPair
      "b1" "").1 (by decide!) (by decide!)⟩

/-! ## The report -/

theorem append_eq_empty {a b : String} (h : a ++ b = "") : a = "" ∧ b = "" := by
  have hd := congrArg String.data h
  simp only [String.data_append, List.append_eq_nil] at hd
  exact ⟨String.ext hd.1, String.ext hd.2⟩

theorem heading_ne_empty (d : QReal) : heading d ≠ "" := by
  unfold heading
  split <;> decide

theorem sectionText_ne_empty (env : Env) (key : String) (dataPair : BenchmarkDataPair) :
    sectionText env key dataPair ≠ "" := by
  unfold sectionText
  intro h
  exact heading_ne_empty _ (append_eq_empty h).1

theorem appendSection_eq_empty_iff (env : Env) (m : QReal) (acc : String)
    (it : String × BenchmarkDataPair) :
    appendSection env m acc it = "" ↔ acc = "" ∧ flagged m it.2 = false := by
  obtain ⟨key, dataPair⟩ := it
  rw [appendSection_eq]
  cases hf : flagged m dataPair
  · simp
  · simp only [if_true, Bool.true_eq_false, and_false, iff_false]
    intro h
    exact sectionText_ne_empty env key dataPair (append_eq_empty h).2

theorem foldl_appendSection_eq_empty_iff (env : Env) (m : QReal) (h : BenchmarkHash)
    (acc : String) :
    h.foldl (appendSection env m) acc = "" ↔ acc = "" ∧ ∀ it ∈ h, flagged m it.2 = false := by
  induction h generalizing acc with
  | nil => simp
  | cons x rest ih =>
    rw [List.foldl_cons, ih, appendSection_eq_empty_iff]
    simp only [List.mem_cons, forall_eq_or_imp]
    tauto

theorem formatResults_eq_empty_iff (env : Env) (m : QReal) (h : BenchmarkHash) :
    formatResults env m h = "" ↔ ∀ it ∈ h, flagged m it.2 = false := by
  unfold formatResults
  rw [foldl_appendSection_eq_empty_iff]
  simp

/-- C10: in every run of `main` that does not take the usage exit, the mail
helper is started if and only if some pair of the collected hash is flagged
under the margin in force; when no pair is flagged, `main` starts no helper,
writes `Nothing to report` to the standard output and returns 0. -/
theorem main_helper_iff_flagged (env : Env) (program : String) (arguments : List String)
    (hhelp : (parseArguments env arguments {}).helpRequested = false)
    (hdir : (parseArguments env arguments {}).directory ≠ "")
    (hmail : (parseArguments env arguments {}).email ≠ "") :
    ((main env program arguments).helper.isSome = true
      ↔ ∃ it ∈ collectDataDirectory env (parseArguments env arguments {}).directory,
          flagged (parseArguments env arguments {}).errorMargin it.2 = true)
    ∧ ((∀ it ∈ collectDataDirectory env (parseArguments env arguments {}).directory,
          flagged (parseArguments env arguments {}).errorMargin it.2 = false) →
        (main env program arguments).helper = none
        ∧ (main env program arguments).stdout = ["Nothing to report\n"]
        ∧ (main env program arguments).exitCode = 0) := by
  unfold main
  generalize parseArguments env arguments {} = a at hhelp hdir hmail ⊢
  have hempty := formatResults_eq_empty_iff env a.errorMargin (collectDataDirectory env a.directory)
  constructor
  · by_cases hnone : formatResults env a.errorMargin (collectDataDirectory env a.directory) = ""
    · have hall := hempty.mp hnone
      simp only [run, hhelp, hdir, hmail, hnone]
      simp only [Bool.false_or, decide_False, Bool.false_eq_true, if_false, ne_eq,
        not_true_eq_false, Option.isSome_none, false_iff, not_exists, not_and]
      intro it hit
      simp [hall it hit]
    · have hsome : ∃ it ∈ collectDataDirectory env a.directory,
          flagged a.errorMargin it.2 = true := by
        by_contra hc
        apply hnone
        apply hempty.mpr
        intro it hit
        cases hf : flagged a.errorMargin it.2
        · rfl
        · exact absurd ⟨it, hit, hf⟩ hc
      simp only [run, hhelp, hdir, hmail, hnone]
      simp only [Bool.false_or, decide_False, Bool.false_eq_true, if_false, ne_eq,
        not_false_eq_true, if_true]
      refine ⟨fun _ => hsome, fun _ => ?_⟩
      rw [if_pos hnone]
      cases env.waitForFinished <;> rfl
  · intro hall
    have hnone := hempty.mpr hall
    simp [run, hhelp, hdir, hmail, hnone]

/-- C10 at a directory of two reports and the arguments `dir qa@example.org`. -/
theorem main_helper_iff_flagged_witness :
    (parseArguments (exampleEnv ["b1"] twoFiles) ["dir", "qa@example.org"] {}).helpRequested = false
    ∧ (parseArguments (exampleEnv ["b1"] twoFiles) ["dir", "qa@example.org"] {}).directory ≠ ""
    ∧ (parseArguments (exampleEnv ["b1"] twoFiles) ["dir", "qa@example.org"] {}).email ≠ ""
    ∧ ((main (exampleEnv ["b1"] twoFiles) "qmlbench-parser" ["dir", "qa@example.org"]).helper.isSome
          = true
        ↔ ∃ it ∈ collectDataDirectory (exampleEnv ["b1"] twoFiles)
            (parseArguments (exampleEnv ["b1"] twoFiles) ["dir", "qa@example.org"] {}).directory,
            flagged
              (parseArguments (exampleEnv ["b1"] twoFiles) ["dir", "qa@example.org"] {}).errorMargin
              it.2 = true) :=
  ⟨by decide, by decide, by decide,
   (main_helper_iff_flagged (exampleEnv ["b1"] twoFiles) "qmlbench-parser"
      ["dir", "qa@example.org"] (by decide) (by decide) (by decide)).1⟩

/-! ## The scenarios of the usage text -/

/-- C1: of three reports for `b1` modified at the times 3, 2 and 1, with the
averages 2, 2 and 10, `collectData(directory)` keeps the two oldest: `first` is
the sample of time 1 (average 10), `second` the sample of time 2 (average 2);
the sample of the newest report is dropped, and the pair is flagged under the
margin 1/2. -/
theorem collectDataDirectory_keeps_two_oldest :
    collectDataDirectory (exampleEnv ["b1"] threeFiles) "dir"
      = [("b1",
          { first := { average := QReal.fin 10, time := some 1,
                       baseCommit := "abc", declarativeCommit := "def" }
            second := { average := QReal.fin 2, time := some 2,
                        baseCommit := "abc", declarativeCommit := "def" } })]
    ∧ difference ((collectDataDirectory (exampleEnv ["b1"] threeFiles) "dir").value "b1")
        = QReal.fin (4 / 5)
    ∧ flagged (QReal.fin (1 / 2))
        ((collectDataDirectory (exampleEnv ["b1"] threeFiles) "dir").value "b1") = true := by
  refine ⟨by decide!, by decide!, by decide!⟩

/-- C4: with two reports for `b1`, the newer one of average 1 and the older one
of average 51/50, and the default margin, `main` hands the mail helper a body
with one section for `b1`, and the section is headed REGRESSION. -/
theorem main_two_reports_regression :
    main (exampleEnv ["b1"] twoFiles) "qmlbench-parser" ["dir", "qa@example.org"]
      = { exitCode := 0
          stdout := ["Reporting to qa@example.org\n"]
          stderr := []
          helper := some
            ["-s", "localhost", "-f", "nobody@nowhere",
             "-u", "[Lancelot QmlBench] Discrepancies in benchmarks",
             "-t", "qa@example.org", "-m",
             "Discrepancies detected when running benchmarks today in dir"
             ++ "\n\n____REGRESSION DETECTED_____\n"
             ++ "    Name: b1"
             ++ "        Previous data point: qtbase=abc, qtdeclarative=def (T)\n"
             ++ "        Current data point : qtbase=abc, qtdeclarative=def (T)\n"
             ++ "        Average: ? (was: ?, change: ?%)\n"
             ++ "        Results:  (was: )\n"
             ++ "        Window size:  \n"
             ++ "        Renderer:  \n"
             ++ "        Vendor:  \n"
             ++ "        Driver version:  \n"
             ++ "        Platform plugin:  \n"
             ++ "        OS:  \n"
             ++ "\n\nHave a nice day!"] }
    ∧ ((collectDataDirectory (exampleEnv ["b1"] twoFiles) "dir").value "b1").first.average
        = QReal.fin (51 / 50)
    ∧ ((collectDataDirectory (exampleEnv ["b1"] twoFiles) "dir").value "b1").second.average
        = QReal.fin 1
    ∧ difference ((collectDataDirectory (exampleEnv ["b1"] twoFiles) "dir").value "b1")
        = QReal.fin (1 / 51) := by
  refine ⟨by decide!, by decide!, by decide!, by decide!⟩

/-! ## A run without flagged pair -/

theorem run_of_none_flagged (env : Env) (program : String) (a : Arguments)
    (hhelp : a.helpRequested = false) (hdir : a.directory ≠ "") (hmail : a.email ≠ "")
    (hnone : ∀ it ∈ collectDataDirectory env a.directory, flagged a.errorMargin it.2 = false) :
    run env program a
      = { exitCode := 0, stdout := ["Nothing to report\n"],
          stderr := (entryInfoList env a.directory).flatMap collectDataWarnings,
          helper := none } := by
  have hempty := (formatResults_eq_empty_iff env a.errorMargin
    (collectDataDirectory env a.directory)).mpr hnone
  simp [run, hhelp, hdir, hmail, hempty]

theorem second_unset_of_single (env : Env) (directory : String) (f : DirFile)
    (hone : env.files directory = [f]) :
    ∀ it ∈ collectDataDirectory env directory, it.2.second.time.isValid = false := by
  intro it hit
  obtain ⟨key, p⟩ := it
  have hp := value_of_mem_collectDataDirectory env directory hit
  have hlist : entryInfoList env directory = [DirFile.info directory f] := by
    simp [entryInfoList, hone, sortEntries, insertEntry]
  rw [hlist] at hp
  show p.second.time.isValid = false
  rw [hp]
  by_cases hk : admits env (DirFile.info directory f) key = true
  · simp [List.filter_cons, hk, firstTwoSamples]
    rfl
  · simp [List.filter_cons, hk, firstTwoSamples]
    rfl

/-- C11: when the directory holds exactly one report file, whatever the report
holds and whatever the margin, no pair of the collected hash has both slots
populated; a run of `main` that does not take the usage exit starts no helper,
writes `Nothing to report` to the standard output and returns 0.  The variables
`a` of the argument loop are arbitrary, and so is the margin among them. -/
theorem main_single_report (env : Env) (program : String) (a : Arguments) (f : DirFile)
    (hhelp : a.helpRequested = false) (hdir : a.directory ≠ "") (hmail : a.email ≠ "")
    (hone : env.files a.directory = [f]) :
    (∀ it ∈ collectDataDirectory env a.directory,
        (it.2.first.time.isValid && it.2.second.time.isValid) = false)
    ∧ run env program a
        = { exitCode := 0, stdout := ["Nothing to report\n"],
            stderr := (entryInfoList env a.directory).flatMap collectDataWarnings,
            helper := none }
    ∧ (∀ arguments : List String, parseArguments env arguments {} = a →
        (main env program arguments).helper = none
        ∧ (main env program arguments).stdout = ["Nothing to report\n"]
        ∧ (main env program arguments).exitCode = 0) := by
  have hsecond := second_unset_of_single env a.directory f hone
  have hnone : ∀ it ∈ collectDataDirectory env a.directory,
      flagged a.errorMargin it.2 = false := by
    intro it hit
    simp [flagged, hsecond it hit]
  have hrun := run_of_none_flagged env program a hhelp hdir hmail hnone
  refine ⟨?_, hrun, ?_⟩
  · intro it hit
    simp [hsecond it hit]
  · intro arguments hargs
    unfold main
    rw [hargs, hrun]
    exact ⟨rfl, rfl, rfl⟩

/-- C11 at a directory that holds one report for `b1`, with the arguments
`dir qa@example.org`. -/
theorem main_single_report_witness :
    (parseArguments (exampleEnv ["b1"] oneFile) ["dir", "qa@example.org"] {}).helpRequested = false
    ∧ (exampleEnv ["b1"] oneFile).files
        (parseArguments (exampleEnv ["b1"] oneFile) ["dir", "qa@example.org"] {}).directory
        = [{ fileName := "only.json", mtime := 1, canOpen := true, root := reportOf 2 }]
    ∧ (main (exampleEnv ["b1"] oneFile) "qmlbench-parser" ["dir", "qa@example.org"]).helper = none
    ∧ (main (exampleEnv ["b1"] oneFile) "qmlbench-parser" ["dir", "qa@example.org"]).stdout
        = ["Nothing to report\n"]
    ∧ (main (exampleEnv ["b1"] oneFile) "qmlbench-parser" ["dir", "qa@example.org"]).exitCode = 0 :=
  ⟨by decide, rfl,
   (main_single_report (exampleEnv ["b1"] oneFile) "qmlbench-parser"
      (parseArguments (exampleEnv ["b1"] oneFile) ["dir", "qa@example.org"] {})
      { fileName := "only.json", mtime := 1, canOpen := true, root := reportOf 2 }
      (by decide) (by decide) (by decide) rfl).2.2 ["dir", "qa@example.org"] rfl⟩

/-! ## The argument loop -/

theorem parseArguments_nil (env : Env) (a : Arguments) : parseArguments env [] a = a := by
  unfold parseArguments
  rfl

theorem parseArguments_help (env : Env) (arguments : List String) (a : Arguments)
    (h : a.helpRequested = true) : parseArguments env arguments a = a := by
  match arguments with
  | [] => exact parseArguments_nil env a
  | [x] => unfold parseArguments; simp [h]
  | x :: y :: rest => unfold parseArguments; simp [h]

theorem parseArguments_option_last (env : Env) (x : String) (a : Arguments)
    (hx : x = "-s" ∨ x = "-f" ∨ x = "-e" ∨ x = "-h") :
    (parseArguments env [x] a).helpRequested = true := by
  unfold parseArguments
  by_cases h : a.helpRequested = true
  · simp [h]
  · rcases hx with hx | hx | hx | hx <;> subst hx <;> simp [h]

theorem parseArguments_smtp (env : Env) (v : String) (rest : List String) (a : Arguments)
    (h : a.helpRequested = false) :
    parseArguments env ("-s" :: v :: rest) a = parseArguments env rest { a with smtpServer := v } := by
  conv_lhs => rw [parseArguments]
  simp [h]

theorem parseArguments_sender (env : Env) (v : String) (rest : List String) (a : Arguments)
    (h : a.helpRequested = false) :
    parseArguments env ("-f" :: v :: rest) a = parseArguments env rest { a with senderEmail := v } := by
  conv_lhs => rw [parseArguments]
  simp [h]

theorem parseArguments_margin (env : Env) (v : String) (rest : List String) (a : Arguments)
    (h : a.helpRequested = false) :
    parseArguments env ("-e" :: v :: rest) a
      = parseArguments env rest
          { a with errorMargin := (env.toDouble v).1, helpRequested := (env.toDouble v).2 } := by
  conv_lhs => rw [parseArguments]
  simp [h]

theorem parseArguments_h (env : Env) (rest : List String) (a : Arguments) :
    (parseArguments env ("-h" :: rest) a).helpRequested = true := by
  match rest with
  | [] => exact parseArguments_option_last env "-h" a (by simp)
  | y :: rest =>
    rw [parseArguments]
    by_cases h : a.helpRequested = true <;> simp [h]

theorem parseArguments_positional (env : Env) (x : String) (rest : List String) (a : Arguments)
    (h : a.helpRequested = false)
    (hs : x ≠ "-s") (hf : x ≠ "-f") (he : x ≠ "-e") (hh : x ≠ "-h") :
    parseArguments env (x :: rest) a
      = if a.directory = "" then parseArguments env rest { a with directory := x }
        else if a.email = "" then parseArguments env rest { a with email := x }
        else { a with helpRequested := true } := by
  match rest with
  | [] =>
    conv_lhs => rw [parseArguments]
    simp only [h, Bool.false_eq_true, if_false, hs, hf, he, hh, parseArguments_nil]
  | y :: rest =>
    conv_lhs => rw [parseArguments]
    simp only [h, Bool.false_eq_true, if_false, hs, hf, he, hh]

theorem positionalArguments_option (x v : String) (rest : List String)
    (hx : x = "-s" ∨ x = "-f" ∨ x = "-e") :
    positionalArguments (x :: v :: rest) = positionalArguments rest := by
  rw [positionalArguments]
  simp [hx]

theorem positionalArguments_positional (x : String) (rest : List String)
    (hs : x ≠ "-s") (hf : x ≠ "-f") (he : x ≠ "-e") (hh : x ≠ "-h") :
    positionalArguments (x :: rest) = x :: positionalArguments rest := by
  match rest with
  | [] => simp [positionalArguments, hs, hf, he, hh]
  | y :: rest =>
    rw [positionalArguments]
    simp [hs, hf, he, hh]

theorem positionalCount_option (x v : String) (rest : List String)
    (hx : x = "-s" ∨ x = "-f" ∨ x = "-e") :
    positionalCount (x :: v :: rest) = positionalCount rest := by
  unfold positionalCount
  rw [positionalArguments_option x v rest hx]

theorem positionalCount_positional (x : String) (rest : List String)
    (hs : x ≠ "-s") (hf : x ≠ "-f") (he : x ≠ "-e") (hh : x ≠ "-h") :
    positionalCount (x :: rest) = (if x = "" then 0 else 1) + positionalCount rest := by
  unfold positionalCount
  rw [positionalArguments_positional x rest hs hf he hh]
  by_cases hx : x = ""
  · simp [List.filter_cons, hx]
  · simp [List.filter_cons, hx]
    omega

theorem positionalCount_option_last (x : String)
    (hx : x = "-s" ∨ x = "-f" ∨ x = "-e" ∨ x = "-h") : positionalCount [x] = 0 := by
  simp [positionalCount, positionalArguments, hx]

theorem run_usage (env : Env) (program : String) (a : Arguments)
    (h : a.helpRequested = true ∨ a.directory = "" ∨ a.email = "") :
    run env program a = usageExit program := by
  unfold run usageExit
  rw [if_pos]
  rcases h with h | h | h <;> simp [h]

theorem help_of_many_positionals (env : Env) (n : Nat) :
    ∀ (arguments : List String) (a : Arguments), arguments.length ≤ n →
      unsetPositionals a < positionalCount arguments →
      (parseArguments env arguments a).helpRequested = true := by
  induction n with
  | zero =>
    intro arguments a hlen hcount
    have hnil : arguments = [] := List.eq_nil_of_length_eq_zero (by omega)
    subst hnil
    simp [positionalCount, positionalArguments] at hcount
  | succ n ih =>
    intro arguments a hlen hcount
    by_cases hhelp : a.helpRequested = true
    · rw [parseArguments_help env arguments a hhelp]
      exact hhelp
    have hhelp' : a.helpRequested = false := by simpa using hhelp
    match arguments, hlen, hcount with
    | [], _, hcount => simp [positionalCount, positionalArguments] at hcount
    | x :: rest, hlen, hcount =>
      by_cases hh : x = "-h"
      · subst hh
        exact parseArguments_h env rest a
      by_cases hopt : x = "-s" ∨ x = "-f" ∨ x = "-e"
      · cases rest with
        | nil => exact parseArguments_option_last env x a (by tauto)
        | cons v rest =>
          rw [positionalCount_option x v rest hopt] at hcount
          have hlen' : rest.length ≤ n := by simp at hlen; omega
          rcases hopt with hx | hx | hx <;> subst hx
          · rw [parseArguments_smtp env v rest a hhelp']
            exact ih rest _ hlen' hcount
          · rw [parseArguments_sender env v rest a hhelp']
            exact ih rest _ hlen' hcount
          · rw [parseArguments_margin env v rest a hhelp']
            exact ih rest _ hlen' hcount
      · have hs : x ≠ "-s" := fun hc => hopt (Or.inl hc)
        have hf : x ≠ "-f" := fun hc => hopt (Or.inr (Or.inl hc))
        have he : x ≠ "-e" := fun hc => hopt (Or.inr (Or.inr hc))
        rw [positionalCount_positional x rest hs hf he hh] at hcount
        rw [parseArguments_positional env x rest a hhelp' hs hf he hh]
        have hlen' : rest.length ≤ n := by simp at hlen; omega
        by_cases hd : a.directory = ""
        · rw [if_pos hd]
          apply ih rest _ hlen'
          unfold unsetPositionals at hcount ⊢
          simp only [hd, if_true] at hcount
          by_cases hx : x = "" <;> simp only [hx, if_true, if_false] at hcount ⊢ <;> omega
        · rw [if_neg hd]
          by_cases hm : a.email = ""
          · rw [if_pos hm]
            apply ih rest _ hlen'
            unfold unsetPositionals at hcount ⊢
            simp only [hd, hm, if_true, if_false] at hcount ⊢
            by_cases hx : x = "" <;> simp only [hx, if_true, if_false] at hcount ⊢ <;> omega
          · rw [if_neg hm]

/-- C16, as the code has it: an argument that is none of `-s`, `-f`, `-e`, `-h`
and not the value of one of them is a positional argument, also when it starts
with `-`; `main` prints the usage text and returns 1 as soon as the argument
list holds three non-empty positional arguments. -/
theorem main_usage_of_third_positional (env : Env) (program : String) (arguments : List String)
    (hcount : 3 ≤ positionalCount arguments) :
    main env program arguments = usageExit program := by
  unfold main
  apply run_usage
  apply Or.inl
  apply help_of_many_positionals env arguments.length arguments {} (le_refl _)
  unfold unsetPositionals
  simp only [if_true]
  omega

/-- C16 at the arguments `-x dir qa@example.org`. -/
theorem main_usage_of_third_positional_witness :
    3 ≤ positionalCount ["-x", "dir", "qa@example.org"]
    ∧ main (exampleEnv ["b1"] twoFiles) "qmlbench-parser" ["-x", "dir", "qa@example.org"]
        = usageExit "qmlbench-parser" :=
  ⟨by decide,
   main_usage_of_third_positional (exampleEnv ["b1"] twoFiles) "qmlbench-parser"
     ["-x", "dir", "qa@example.org"] (by decide)⟩

/-- C16 as stated fails: with the arguments `-x qa@example.org` the flag `-x`
is taken as the directory; `main` does not print the usage text, it scans the
directory `-x` and returns 0. -/
theorem main_accepts_unknown_flag :
    parseArguments (exampleEnv ["b1"] []) ["-x", "qa@example.org"] {}
      = { directory := "-x", email := "qa@example.org" }
    ∧ main (exampleEnv ["b1"] []) "qmlbench-parser" ["-x", "qa@example.org"]
      = { exitCode := 0, stdout := ["Nothing to report\n"], stderr := [], helper := none }
    ∧ main (exampleEnv ["b1"] []) "qmlbench-parser" ["-x", "qa@example.org"]
      ≠ usageExit "qmlbench-parser" := by
  refine ⟨by with_unfolding_all rfl, by decide!, by decide!⟩

/-- C15: the loop has no case for `-b`: with the arguments
`dir qa@example.org -b dev`, `-b` is a third positional argument and `main`
takes the usage exit, whereas `dir qa@example.org` alone is accepted; with
`-b dev dir qa@example.org`, `-b` is taken as the directory and `dev` as the
recipient before the usage exit. -/
theorem main_rejects_branch_option :
    parseArguments (exampleEnv ["b1"] twoFiles) ["dir", "qa@example.org"] {}
      = { directory := "dir", email := "qa@example.org" }
    ∧ main (exampleEnv ["b1"] twoFiles) "qmlbench-parser" ["dir", "qa@example.org", "-b", "dev"]
      = usageExit "qmlbench-parser"
    ∧ parseArguments (exampleEnv ["b1"] twoFiles) ["-b", "dev", "dir", "qa@example.org"] {}
      = { directory := "-b", email := "dev", helpRequested := true }
    ∧ main (exampleEnv ["b1"] twoFiles) "qmlbench-parser" ["-b", "dev", "dir", "qa@example.org"]
      = usageExit "qmlbench-parser" := by
  refine ⟨by with_unfolding_all rfl, by decide!, by with_unfolding_all rfl, by decide!⟩

/-- C13: with the arguments `dir qa@example.org -e notanumber`, on a host where
`toDouble` fails on `notanumber` (value 0, `ok` false), `helpRequested` stays
false and the margin becomes 0: `main` does not take the usage exit, it scans
the directory, starts the mail helper and returns 0. -/
theorem main_accepts_unparsed_margin :
    (exampleEnv ["b1"] twoFiles).toDouble "notanumber" = (QReal.fin 0, false)
    ∧ parseArguments (exampleEnv ["b1"] twoFiles) ["dir", "qa@example.org", "-e", "notanumber"] {}
      = { directory := "dir", email := "qa@example.org", errorMargin := QReal.fin 0 }
    ∧ (main (exampleEnv ["b1"] twoFiles) "qmlbench-parser"
        ["dir", "qa@example.org", "-e", "notanumber"]).exitCode = 0
    ∧ (main (exampleEnv ["b1"] twoFiles) "qmlbench-parser"
        ["dir", "qa@example.org", "-e", "notanumber"]).stdout = ["Reporting to qa@example.org\n"]
    ∧ (main (exampleEnv ["b1"] twoFiles) "qmlbench-parser"
        ["dir", "qa@example.org", "-e", "notanumber"]).helper.isSome = true := by
  refine ⟨rfl, by with_unfolding_all rfl, by decide!, by decide!, by decide!⟩

/-- C14: with the arguments `dir qa@example.org -e 0.05`, on a host where
`toDouble` parses `0.05` (`ok` true), the `ok` flag is stored in
`helpRequested` and `main` takes the usage exit; without `-e` the margin is
1/100. -/
theorem main_rejects_parsed_margin :
    parsingEnv.toDouble "0.05" = (QReal.fin (1 / 20), true)
    ∧ parseArguments parsingEnv ["dir", "qa@example.org", "-e", "0.05"] {}
      = { directory := "dir", email := "qa@example.org", errorMargin := QReal.fin (1 / 20),
          helpRequested := true }
    ∧ main parsingEnv "qmlbench-parser" ["dir", "qa@example.org", "-e", "0.05"]
      = usageExit "qmlbench-parser"
    ∧ (parseArguments parsingEnv ["dir", "qa@example.org"] {}).errorMargin = QReal.fin (1 / 100) := by
  refine ⟨by decide!, by with_unfolding_all rfl, by decide!, by decide!⟩

/-! ## QString::arg on strings without place marker -/

theorem argSegments_clean (pre suf : List Char) (hpre : '%' ∉ pre) :
    argSegments 0 (pre ++ suf) = pre.map ArgSegment.text ++ argSegments 0 suf := by
  induction pre with
  | nil => rfl
  | cons c rest ih =>
    have hc : c ≠ '%' := fun h => hpre (by simp [h])
    have hrest : '%' ∉ rest := fun h => hpre (List.mem_cons_of_mem _ h)
    show argSegments 0 (c :: (rest ++ suf))
      = ArgSegment.text c :: (rest.map ArgSegment.text ++ argSegments 0 suf)
    rw [argSegments, if_neg hc, ih hrest]

theorem minEscape_text_append (pre : List Char) (segs : List ArgSegment) :
    minEscape (pre.map ArgSegment.text ++ segs) = minEscape segs := by
  induction pre with
  | nil => rfl
  | cons c rest ih =>
    show minEscape (ArgSegment.text c :: (rest.map ArgSegment.text ++ segs)) = minEscape segs
    rw [minEscape, ih]

theorem replaceArgEscapes_text_append (n : Nat) (plain localized pre : List Char)
    (segs : List ArgSegment) :
    replaceArgEscapes n plain localized (pre.map ArgSegment.text ++ segs)
      = pre ++ replaceArgEscapes n plain localized segs := by
  induction pre with
  | nil => rfl
  | cons c rest ih =>
    show replaceArgEscapes n plain localized (ArgSegment.text c :: (rest.map ArgSegment.text ++ segs))
      = c :: (rest ++ replaceArgEscapes n plain localized segs)
    rw [replaceArgEscapes, ih]

theorem argWith_clean (pre suf plain localized : String) (hpre : noPercent pre) :
    argWith (pre ++ suf) plain localized = pre ++ argWith suf plain localized := by
  unfold argWith
  rw [String.data_append, argSegments_clean pre.data suf.data hpre, minEscape_text_append]
  cases minEscape (argSegments 0 suf.data) with
  | none => rfl
  | some n =>
    simp only [replaceArgEscapes_text_append]
    apply String.ext
    simp [String.data_append]

theorem noPercent_append {s t : String} (hs : noPercent s) (ht : noPercent t) :
    noPercent (s ++ t) := by
  unfold noPercent at *
  simp [String.data_append, hs, ht]

theorem argWith_marker (pre suf rest plain localized : String) (hpre : noPercent pre)
    (hsuf : argWith suf plain localized = plain ++ rest) :
    argWith (pre ++ suf) plain localized = pre ++ plain ++ rest := by
  rw [argWith_clean pre suf plain localized hpre, hsuf, String.append_assoc]

theorem arg_commits (pre a b c : String) (hpre : noPercent pre) (ha : noPercent a)
    (hb : noPercent b) :
    arg (arg (arg (pre ++ "%1, qtdeclarative=%2 (%3)\n") a) b) c
      = pre ++ a ++ ", qtdeclarative=" ++ b ++ " (" ++ c ++ ")\n" := by
  unfold arg
  have h1 : argWith (pre ++ "%1, qtdeclarative=%2 (%3)\n") a a
      = (pre ++ a ++ ", qtdeclarative=") ++ "%2 (%3)\n" := by
    rw [argWith_marker pre "%1, qtdeclarative=%2 (%3)\n" ", qtdeclarative=%2 (%3)\n" a a hpre rfl]
    rw [String.append_assoc (pre ++ a)]
    rfl
  have h2 : argWith ((pre ++ a ++ ", qtdeclarative=") ++ "%2 (%3)\n") b b
      = (pre ++ a ++ ", qtdeclarative=" ++ b ++ " (") ++ "%3)\n" := by
    rw [argWith_marker (pre ++ a ++ ", qtdeclarative=") "%2 (%3)\n" " (%3)\n" b b
      (noPercent_append (noPercent_append hpre ha) (by decide)) rfl]
    rw [String.append_assoc (pre ++ a ++ ", qtdeclarative=" ++ b)]
    rfl
  rw [h1, h2]
  exact argWith_marker _ "%3)\n" ")\n" c c
    (noPercent_append (noPercent_append (noPercent_append (noPercent_append hpre ha) (by decide))
      hb) (by decide)) rfl

theorem argDouble_average (env : Env) (x y z : QReal) (hx : noPercent (env.argNumber x))
    (hy : noPercent (env.argNumber y)) :
    argDouble env (argDouble env (argDouble env "        Average: %1 (was: %2, change: %3%)\n" x) y) z
      = "        Average: " ++ env.argNumber x ++ " (was: " ++ env.argNumber y ++ ", change: "
          ++ env.argNumber z ++ "%)\n" := by
  unfold argDouble
  have h0 : ("        Average: %1 (was: %2, change: %3%)\n" : String)
      = "        Average: " ++ "%1 (was: %2, change: %3%)\n" := by decide
  have h1 : argWith "        Average: %1 (was: %2, change: %3%)\n" (env.argNumber x)
        (env.argNumberLocale x)
      = ("        Average: " ++ env.argNumber x ++ " (was: ") ++ "%2, change: %3%)\n" := by
    rw [h0, argWith_marker "        Average: " "%1 (was: %2, change: %3%)\n"
      " (was: %2, change: %3%)\n" _ _ (by decide) rfl]
    rw [String.append_assoc ("        Average: " ++ env.argNumber x)]
    rfl
  have h2 : argWith (("        Average: " ++ env.argNumber x ++ " (was: ") ++ "%2, change: %3%)\n")
        (env.argNumber y) (env.argNumberLocale y)
      = ("        Average: " ++ env.argNumber x ++ " (was: " ++ env.argNumber y ++ ", change: ")
          ++ "%3%)\n" := by
    rw [argWith_marker ("        Average: " ++ env.argNumber x ++ " (was: ") "%2, change: %3%)\n"
      ", change: %3%)\n" _ _ (noPercent_append (noPercent_append (by decide) hx) (by decide)) rfl]
    rw [String.append_assoc ("        Average: " ++ env.argNumber x ++ " (was: " ++ env.argNumber y)]
    rfl
  rw [h1, h2]
  exact argWith_marker _ "%3%)\n" "%)\n" _ _
    (noPercent_append (noPercent_append (noPercent_append (noPercent_append (by decide) hx)
      (by decide)) hy) (by decide)) rfl

theorem details_eq (env : Env) (key : String) (dataPair : BenchmarkDataPair) (d : QReal) :
    details env key dataPair d
      = arg "    Name: %1" key
        ++ arg (arg (arg "        Previous data point: qtbase=%1, qtdeclarative=%2 (%3)\n"
              dataPair.first.baseCommit) dataPair.first.declarativeCommit)
              (env.isoDate dataPair.first.time)
        ++ arg (arg (arg "        Current data point : qtbase=%1, qtdeclarative=%2 (%3)\n"
              dataPair.second.baseCommit) dataPair.second.declarativeCommit)
              (env.isoDate dataPair.second.time)
        ++ argDouble env (argDouble env (argDouble env
              "        Average: %1 (was: %2, change: %3%)\n"
              dataPair.second.average) dataPair.first.average) (QReal.mul d (QReal.fin 100))
        ++ environmentLines dataPair := by
  unfold details environmentLines
  simp only [String.append_assoc]

/-- C12, as the code has it: in the section of a flagged pair, `first` is
presented as the previous sample and `second` as the current one: the
`Previous data point` line carries the commits and the time of `first`, the
`Current data point` line those of `second`, and the `Average` line reads
`<second.average> (was: <first.average>, ...`.  The commits and the rendered
averages are taken to hold no `%`, which `QString::arg` would read as a place
marker. -/
theorem appendSection_first_is_previous (env : Env) (errorMargin : QReal)
    (testResultsFormatted key : String) (dataPair : BenchmarkDataPair)
    (hflag : flagged errorMargin dataPair = true)
    (h1 : noPercent dataPair.first.baseCommit) (h2 : noPercent dataPair.first.declarativeCommit)
    (h3 : noPercent dataPair.second.baseCommit) (h4 : noPercent dataPair.second.declarativeCommit)
    (h5 : noPercent (env.argNumber dataPair.second.average))
    (h6 : noPercent (env.argNumber dataPair.first.average)) :
    appendSection env errorMargin testResultsFormatted (key, dataPair)
      = testResultsFormatted
        ++ (heading (difference dataPair)
        ++ arg "    Name: %1" key
        ++ ("        Previous data point: qtbase=" ++ dataPair.first.baseCommit
              ++ ", qtdeclarative=" ++ dataPair.first.declarativeCommit
              ++ " (" ++ env.isoDate dataPair.first.time ++ ")\n")
        ++ ("        Current data point : qtbase=" ++ dataPair.second.baseCommit
              ++ ", qtdeclarative=" ++ dataPair.second.declarativeCommit
              ++ " (" ++ env.isoDate dataPair.second.time ++ ")\n")
        ++ ("        Average: " ++ env.argNumber dataPair.second.average
              ++ " (was: " ++ env.argNumber dataPair.first.average
              ++ ", change: "
              ++ env.argNumber (QReal.mul (difference dataPair) (QReal.fin 100)) ++ "%)\n")
        ++ environmentLines dataPair) := by
  rw [appendSection_eq, if_pos hflag]
  unfold sectionText
  rw [details_eq]
  have hprev : ("        Previous data point: qtbase=%1, qtdeclarative=%2 (%3)\n" : String)
      = "        Previous data point: qtbase=" ++ "%1, qtdeclarative=%2 (%3)\n" := by decide
  have hcur : ("        Current data point : qtbase=%1, qtdeclarative=%2 (%3)\n" : String)
      = "        Current data point : qtbase=" ++ "%1, qtdeclarative=%2 (%3)\n" := by decide
  rw [hprev, hcur,
    arg_commits "        Previous data point: qtbase=" _ _ _ (by decide) h1 h2,
    arg_commits "        Current data point : qtbase=" _ _ _ (by decide) h3 h4,
    argDouble_average env _ _ _ h5 h6]
  simp only [String.append_assoc]

/-- C12 at the pair `labelledPair`, with the margin 1/100. -/
theorem appendSection_first_is_previous_witness :
    flagged (QReal.fin (1 / 100)) labelledPair = true
    ∧ appendSection labelEnv (QReal.fin (1 / 100)) "" ("bench", labelledPair)
      = ""
        ++ (heading (difference labelledPair)
        ++ arg "    Name: %1" "bench"
        ++ ("        Previous data point: qtbase=" ++ labelledPair.first.baseCommit
              ++ ", qtdeclarative=" ++ labelledPair.first.declarativeCommit
              ++ " (" ++ labelEnv.isoDate labelledPair.first.time ++ ")\n")
        ++ ("        Current data point : qtbase=" ++ labelledPair.second.baseCommit
              ++ ", qtdeclarative=" ++ labelledPair.second.declarativeCommit
              ++ " (" ++ labelEnv.isoDate labelledPair.second.time ++ ")\n")
        ++ ("        Average: " ++ labelEnv.argNumber labelledPair.second.average
              ++ " (was: " ++ labelEnv.argNumber labelledPair.first.average
              ++ ", change: "
              ++ labelEnv.argNumber (QReal.mul (difference labelledPair) (QReal.fin 100)) ++ "%)\n")
        ++ environmentLines labelledPair) :=
  ⟨by decide!,
   appendSection_first_is_previous labelEnv (QReal.fin (1 / 100)) "" "bench" labelledPair
     (by decide!) (by decide) (by decide) (by decide) (by decide) (by decide!) (by decide!)⟩

/-- C12 as stated fails: for the flagged pair `labelledPair` the section reads
`Previous data point: qtbase=b1, qtdeclarative=d1 (T1)`, the commits and time of
`first`, then `Current data point : qtbase=b2, qtdeclarative=d2 (T2)`, those of
`second`, then `Average: 2 (was: 1, ...`; it is not the section with `first` on
the `Current data point` line. -/
theorem appendSection_first_not_current :
    flagged (QReal.fin (1 / 100)) labelledPair = true
    ∧ appendSection labelEnv (QReal.fin (1 / 100)) "" ("bench", labelledPair)
      = "\n\n____REGRESSION DETECTED_____\n"
        ++ "    Name: bench"
        ++ "        Previous data point: qtbase=b1, qtdeclarative=d1 (T1)\n"
        ++ "        Current data point : qtbase=b2, qtdeclarative=d2 (T2)\n"
        ++ "        Average: 2 (was: 1, change: ?%)\n"
        ++ "        Results:  (was: )\n"
        ++ "        Window size:  \n"
        ++ "        Renderer:  \n"
        ++ "        Vendor:  \n"
        ++ "        Driver version:  \n"
        ++ "        Platform plugin:  \n"
        ++ "        OS:  \n"
    ∧ appendSection labelEnv (QReal.fin (1 / 100)) "" ("bench", labelledPair)
      ≠ heading (difference labelledPair)
        ++ arg "    Name: %1" "bench"
        ++ ("        Previous data point: qtbase=" ++ labelledPair.second.baseCommit
              ++ ", qtdeclarative=" ++ labelledPair.second.declarativeCommit
              ++ " (" ++ labelEnv.isoDate labelledPair.second.time ++ ")\n")
        ++ ("        Current data point : qtbase=" ++ labelledPair.first.baseCommit
              ++ ", qtdeclarative=" ++ labelledPair.first.declarativeCommit
              ++ " (" ++ labelEnv.isoDate labelledPair.first.time ++ ")\n")
        ++ ("        Average: " ++ labelEnv.argNumber labelledPair.first.average
              ++ " (was: " ++ labelEnv.argNumber labelledPair.second.average
              ++ ", change: "
              ++ labelEnv.argNumber (QReal.mul (difference labelledPair) (QReal.fin 100)) ++ "%)\n")
        ++ environmentLines labelledPair := by
  refine ⟨by decide!, by decide!, by decide!⟩

/-! ## The sample of one entry -/

theorem unsetSlotsEmpty_firstTwoSamples (env : Env) (key : String) (l : List QFileInfo)
    (hvalid : ∀ f ∈ l, f.lastModified.isValid = true) :
    unsetSlotsEmpty (firstTwoSamples env key l) := by
  match l, hvalid with
  | [], _ => exact ⟨fun _ => rfl, fun _ => rfl⟩
  | [f], hv =>
    refine ⟨fun h => ?_, fun _ => rfl⟩
    have hf := hv f (List.mem_cons_self _ _)
    simp only [firstTwoSamples, sampleOf_time] at h
    rw [hf] at h
    exact absurd h (by simp)
  | f :: g :: rest, hv =>
    have hf := hv f (List.mem_cons_self _ _)
    have hg := hv g (List.mem_cons_of_mem _ (List.mem_cons_self _ _))
    refine ⟨fun h => ?_, fun h => ?_⟩
    · simp only [firstTwoSamples, sampleOf_time] at h
      rw [hf] at h
      exact absurd h (by simp)
    · simp only [firstTwoSamples, sampleOf_time] at h
      rw [hg] at h
      exact absurd h (by simp)

theorem unsetSlotsEmpty_foldl_collectData (env : Env) (reports : List QFileInfo) (key : String)
    (hvalid : ∀ f ∈ reports, f.lastModified.isValid = true) :
    unsetSlotsEmpty ((reports.foldl (fun ret entry => collectData env entry ret) []).value key) := by
  rw [value_foldl_collectData]
  have h := foldl_stepPair_empty env key reports hvalid
  have hv : BenchmarkHash.value [] key = {} := rfl
  rw [hv, h]
  exact unsetSlotsEmpty_firstTwoSamples env key _
    (fun f hf => hvalid f (List.mem_of_mem_filter hf))

theorem fillData_of_no_results (env : Env) (fileInfo : QFileInfo) (m : Metadata)
    (value : QJsonValue) (data : BenchmarkData) (hdata : data.results = []) :
    fillData env fileInfo m value data = fillData env fileInfo m value {} := by
  unfold fillData
  rw [hdata]

/-- C18: in every state of the hash that a scan builds (reports with valid
modification times read one after the other into the empty hash), and more
generally in every state whose unset slots hold no results, for every report
with a valid modification time and every admitted key whose pair has an unset
slot, `collectData` fills one slot, `first` if it is unset and else `second`,
with the sample of the entry: the time of the file, the metadata of the report,
the `average` of the entry and its `results` rendered in order; the other slot
of the pair and the pairs of the names the report does not admit are unchanged. -/
theorem collectData_fills_unset_slot (env : Env) (fileInfo : QFileInfo)
    (benchmarkDatas : BenchmarkHash) (key : String)
    (hvalid : fileInfo.lastModified.isValid = true)
    (hadm : admits env fileInfo key = true)
    (hstate : unsetSlotsEmpty (benchmarkDatas.value key)) :
    (∀ reports : List QFileInfo, (∀ f ∈ reports, f.lastModified.isValid = true) →
        ∀ name : String,
          unsetSlotsEmpty
            ((reports.foldl (fun ret entry => collectData env entry ret) []).value name))
    ∧ ((benchmarkDatas.value key).first.time.isValid = false →
        BenchmarkHash.lookup key (collectData env fileInfo benchmarkDatas)
          = some { first := sampleOf env fileInfo key
                   second := (benchmarkDatas.value key).second })
    ∧ ((benchmarkDatas.value key).first.time.isValid = true →
        (benchmarkDatas.value key).second.time.isValid = false →
        BenchmarkHash.lookup key (collectData env fileInfo benchmarkDatas)
          = some { first := (benchmarkDatas.value key).first
                   second := sampleOf env fileInfo key })
    ∧ sampleOf env fileInfo key
        = { time := fileInfo.lastModified
            baseCommit := (readMetadata fileInfo.root).baseCommit
            declarativeCommit := (readMetadata fileInfo.root).declarativeCommit
            windowSize := (readMetadata fileInfo.root).windowSize
            renderer := (readMetadata fileInfo.root).renderer
            vendor := (readMetadata fileInfo.root).vendor
            driverVersion := (readMetadata fileInfo.root).driverVersion
            platformPlugin := (readMetadata fileInfo.root).platformPlugin
            productName := (readMetadata fileInfo.root).productName
            average := ((fileInfo.root.value key).toObject.value "average").toDouble
            results := ((fileInfo.root.value key).toObject.value "results").toArray.map
              (fun x => env.number x.toDouble) }
    ∧ (sampleOf env fileInfo key).time.isValid = true
    ∧ (∀ other : String, admits env fileInfo other = false →
        BenchmarkHash.lookup other (collectData env fileInfo benchmarkDatas)
          = BenchmarkHash.lookup other benchmarkDatas) := by
  refine ⟨?_, ?_, ?_, ?_, hvalid, ?_⟩
  · intro reports hreports name
    exact unsetSlotsEmpty_foldl_collectData env reports name hreports
  · intro h1
    rw [lookup_collectData_of_admits env fileInfo benchmarkDatas hadm,
      fillPair_first_unset _ _ _ _ _ h1,
      fillData_of_no_results _ _ _ _ _ (hstate.1 h1)]
    rfl
  · intro h1 h2
    rw [lookup_collectData_of_admits env fileInfo benchmarkDatas hadm,
      fillPair_second_unset _ _ _ _ _ h1 h2,
      fillData_of_no_results _ _ _ _ _ (hstate.2 h2)]
    rfl
  · unfold sampleOf fillData
    simp
  · intro other hother
    exact lookup_collectData_of_not_admits env fileInfo benchmarkDatas hother

/-- C18 at the report `resultsReport`, read after the first report of
`threeReports`: the slot `first` of `b1` is set by then, and `second` takes the
sample of `resultsReport`, with the two rendered results of its entry. -/
theorem collectData_fills_unset_slot_witness :
    resultsReport.lastModified.isValid = true
    ∧ admits (exampleEnv ["b1"] []) resultsReport "b1" = true
    ∧ unsetSlotsEmpty
        (((threeReports.take 1).foldl
          (fun ret entry => collectData (exampleEnv ["b1"] []) entry ret) []).value "b1")
    ∧ BenchmarkHash.lookup "b1"
        (collectData (exampleEnv ["b1"] []) resultsReport
          ((threeReports.take 1).foldl
            (fun ret entry => collectData (exampleEnv ["b1"] []) entry ret) []))
        = some { first := { average := QReal.fin 10, time := some 1, baseCommit := "abc",
                            declarativeCommit := "def" }
                 second := { average := QReal.fin 3, results := ["?", "?"], time := some 5,
                             baseCommit := "abc", declarativeCommit := "def",
                             windowSize := "800x600" } } :=
  ⟨rfl, by decide,
   unsetSlotsEmpty_foldl_collectData (exampleEnv ["b1"] []) (threeReports.take 1) "b1" (by decide),
   ((collectData_fills_unset_slot (exampleEnv ["b1"] []) resultsReport
      ((threeReports.take 1).foldl
        (fun ret entry => collectData (exampleEnv ["b1"] []) entry ret) []) "b1" rfl (by decide)
      (unsetSlotsEmpty_foldl_collectData (exampleEnv ["b1"] []) (threeReports.take 1) "b1"
        (by decide))).2.2.1 (by decide) (by decide)).trans (by decide)⟩

theorem splitChars_ne_nil (sep : Char) (cs : List Char) : splitChars sep cs ≠ [] := by
  cases cs with
  | nil => simp [splitChars]
  | cons c cs =>
    unfold splitChars
    split
    · simp
    · split <;> simp

theorem length_splitChars (sep : Char) (cs : List Char) :
    (splitChars sep cs).length = cs.count sep + 1 := by
  induction cs with
  | nil => simp [splitChars]
  | cons c cs ih =>
    unfold splitChars
    by_cases hc : c = sep
    · subst hc
      simp [ih]
    · have hc' : (c == sep) = false := by simpa using hc
      rw [if_neg hc, List.count_cons, hc']
      cases hs : splitChars sep cs with
      | nil => exact absurd hs (splitChars_ne_nil sep cs)
      | cons p ps =>
        rw [hs] at ih
        simpa using ih

theorem length_split (s : String) (sep : Char) :
    (split s sep).length = s.data.count sep + 1 := by
  unfold split
  rw [List.length_map, length_splitChars]

/-- C20: when the `id` of a report splits on `,` into exactly two parts, every
sample taken from the report has the first part as `baseCommit` and the second
as `declarativeCommit`; when it splits into another number of parts (the number
of parts is the number of commas plus one), both commits are empty and the
sample has all its other fields as usual; the keys of the report are admitted
whatever its `id`. -/
theorem fillData_commits (env : Env) (fileInfo : QFileInfo) (value : QJsonValue)
    (data : BenchmarkData) :
    (∀ p q : String, split (fileInfo.root.value "id").toString ',' = [p, q] →
        (fillData env fileInfo (readMetadata fileInfo.root) value data).baseCommit = p
        ∧ (fillData env fileInfo (readMetadata fileInfo.root) value data).declarativeCommit = q)
    ∧ ((split (fileInfo.root.value "id").toString ',').length ≠ 2 →
        fillData env fileInfo (readMetadata fileInfo.root) value data
          = { time := fileInfo.lastModified
              baseCommit := ""
              declarativeCommit := ""
              windowSize := (fileInfo.root.value "windowSize").toString
              renderer := ((fileInfo.root.value "opengl").toObject.value "renderer").toString
              vendor := ((fileInfo.root.value "opengl").toObject.value "vendor").toString
              driverVersion := ((fileInfo.root.value "opengl").toObject.value "version").toString
              platformPlugin := ((fileInfo.root.value "os").toObject.value "platformPlugin").toString
              productName := ((fileInfo.root.value "os").toObject.value "prettyProductName").toString
              average := (value.toObject.value "average").toDouble
              results := data.results
                ++ (value.toObject.value "results").toArray.map (fun x => env.number x.toDouble) })
    ∧ (split (fileInfo.root.value "id").toString ',').length
        = (fileInfo.root.value "id").toString.data.count ',' + 1
    ∧ (∀ (benchmarkDatas : BenchmarkHash) (key : String), admits env fileInfo key = true →
        BenchmarkHash.lookup key (collectData env fileInfo benchmarkDatas)
          = some (fillPair env fileInfo (readMetadata fileInfo.root) (fileInfo.root.value key)
              (benchmarkDatas.value key))) := by
  refine ⟨?_, ?_, length_split _ _, ?_⟩
  · intro p q hsplit
    simp [fillData, readMetadata, hsplit]
  · intro hlen
    simp [fillData, readMetadata, hlen]
  · intro benchmarkDatas key hadm
    exact lookup_collectData_of_admits env fileInfo benchmarkDatas hadm

/-- C20 at the reports `resultsReport` (id `abc,def`) and `plainIdReport` (id
`abc`): the first gives the commits `abc` and `def`, the second splits into one
part. -/
theorem fillData_commits_witness :
    split (resultsReport.root.value "id").toString ',' = ["abc", "def"]
    ∧ (fillData (exampleEnv ["b1"] []) resultsReport (readMetadata resultsReport.root)
        (resultsReport.root.value "b1") {}).baseCommit = "abc"
    ∧ (fillData (exampleEnv ["b1"] []) resultsReport (readMetadata resultsReport.root)
        (resultsReport.root.value "b1") {}).declarativeCommit = "def"
    ∧ (split (plainIdReport.root.value "id").toString ',').length ≠ 2
    ∧ (fillData (exampleEnv ["b1"] []) plainIdReport (readMetadata plainIdReport.root)
        (plainIdReport.root.value "b1") {}).baseCommit = "" :=
  ⟨by decide,
   ((fillData_commits (exampleEnv ["b1"] []) resultsReport (resultsReport.root.value "b1") {}).1
      "abc" "def" (by decide)).1,
   ((fillData_commits (exampleEnv ["b1"] []) resultsReport (resultsReport.root.value "b1") {}).1
      "abc" "def" (by decide)).2,
   by decide,
   congrArg BenchmarkData.baseCommit
     ((fillData_commits (exampleEnv ["b1"] []) plainIdReport (plainIdReport.root.value "b1") {}).2.1
        (by decide))⟩

end QmlBench
